import Mathlib

/-!
Verification development for the cache/retrieval core of the Farmer Copilot backend.

The definitions below are a shallow embedding of the Python sources:
  * `services/ai/smart_cache.py`       (SmartCache, CachedResponseGenerator)
  * `services/rag/retriever.py`        (FALLBACK_KNOWLEDGE, _keyword_search, semantic_search)
  * `services/rag/groq_composer.py`    (compose)
  * `services/ai/conversation_context.py` (ConversationContext.add_turn)
  * `services/api/routes/mobile_route.py` (text_query route)

Machine-level conventions: Python `datetime` values are modelled as `Nat`
instants (the TTL `max_age_hours` is a duration in the same abstract unit);
Python floats that only ever hold exact small values (scores, confidences)
are modelled as `ℚ`; Python dicts keyed by strings are association lists.
External collaborators (Groq LLM, vector store, translator, TTS, DB) are
modelled as explicit functional parameters, and fallible calls as `Option`.
-/

namespace FarmerCopilot

set_option maxRecDepth 100000

/-! ## Python string primitives

Helpers mirroring the exact Python string operations used by the sources:
`str.split()` (whitespace split, empties dropped), the `in` substring test,
and byte-level UTF-8 encoding (used by `str.encode()` before hashing).
-/

/-- Tests that `needleChars` is a prefix of `hayChars` (character-by-character). -/
def charsStartWith : List Char → List Char → Bool
  | [], _ => true
  | _ :: _, [] => false
  | a :: as, b :: bs => a == b && charsStartWith as bs

/-- Python `needle in hay` substring containment on character lists. -/
def charsContain (needle : List Char) : List Char → Bool
  | [] => needle.isEmpty
  | c :: rest => charsStartWith needle (c :: rest) || charsContain needle rest

/-- Python `needle in hay` substring containment on strings. -/
def strContains (hay needle : String) : Bool :=
  charsContain needle.data hay.data

/-- Python `str.lower()`, per character (the source strings are ASCII, on
which Python and this agree). -/
def pyLower (s : String) : String :=
  ⟨s.data.map Char.toLower⟩

/-- Drop leading whitespace from a character list. -/
def dropLeadingWs : List Char → List Char
  | [] => []
  | c :: cs => if c.isWhitespace then dropLeadingWs cs else c :: cs

/-- Python `str.strip()`: remove leading and trailing whitespace. -/
def pyStrip (s : String) : String :=
  ⟨(dropLeadingWs (dropLeadingWs s.data).reverse).reverse⟩

/-- Python `s[:n]`: the first `n` characters. -/
def pyTake (s : String) (n : Nat) : String :=
  ⟨s.data.take n⟩

/-- Worker for `pySplitWs`: `acc` holds the current word reversed. -/
def wordsAux : List Char → List Char → List String
  | [], acc => if acc.isEmpty then [] else [⟨acc.reverse⟩]
  | c :: cs, acc =>
    if c.isWhitespace then
      if acc.isEmpty then wordsAux cs [] else ⟨acc.reverse⟩ :: wordsAux cs []
    else wordsAux cs (c :: acc)

/-- Python `str.split()` with no argument: split on whitespace runs,
dropping empty pieces. -/
def pySplitWs (s : String) : List String :=
  wordsAux s.data []

/-- Worker for `pySplitOnChar`: `acc` holds the current piece reversed. -/
def splitOnCharAux (sep : Char) : List Char → List Char → List String
  | [], acc => [⟨acc.reverse⟩]
  | c :: cs, acc =>
    if c == sep then ⟨acc.reverse⟩ :: splitOnCharAux sep cs []
    else splitOnCharAux sep cs (c :: acc)

/-- Python `str.split(sep)` for a one-character separator: keeps empty
pieces, including a leading/trailing one. -/
def pySplitOnChar (sep : Char) (s : String) : List String :=
  splitOnCharAux sep s.data []

/-- Python `str.replace(old, new)` for a one-character `old`. -/
def pyReplaceChar (old : Char) (new : String) (s : String) : String :=
  ⟨s.data.flatMap (fun c => if c == old then new.data else [c])⟩

/-- Python `sep.join(parts)`. -/
def joinSep (sep : String) : List String → String
  | [] => ""
  | [x] => x
  | x :: y :: rest => x ++ sep ++ joinSep sep (y :: rest)

/-- UTF-8 encoding of one character (Python `str.encode()` per code point). -/
def charUtf8 (c : Char) : List Nat :=
  let n := c.toNat
  if n < 0x80 then [n]
  else if n < 0x800 then [0xC0 + n / 64, 0x80 + n % 64]
  else if n < 0x10000 then [0xE0 + n / 4096, 0x80 + n / 64 % 64, 0x80 + n % 64]
  else [0xF0 + n / 262144, 0x80 + n / 4096 % 64, 0x80 + n / 64 % 64, 0x80 + n % 64]

/-- UTF-8 encoding of a string as a byte (0..255) list. -/
def utf8Bytes (s : String) : List Nat :=
  s.data.flatMap charUtf8

/-! ## MD5 (RFC 1321)

`smart_cache.py` derives cache keys with `hashlib.md5(...).hexdigest()`.
We embed the digest itself so the key function matches the source exactly.
All words are `Nat` reduced mod `2 ^ 32` where overflow matters.
-/

/-- Truncation to 32 bits. -/
def w32 (n : Nat) : Nat := n % 4294967296

/-- Bitwise complement on 32 bits. -/
def wnot (n : Nat) : Nat := 4294967295 - w32 n

/-- Left rotation on 32 bits. -/
def rotl (x s : Nat) : Nat :=
  w32 (w32 x * 2 ^ s) + w32 x / 2 ^ (32 - s)

/-- Per-round left-rotation amounts (RFC 1321 table). -/
def md5Shifts : List Nat :=
  [7, 12, 17, 22, 7, 12, 17, 22, 7, 12, 17, 22, 7, 12, 17, 22,
   5, 9, 14, 20, 5, 9, 14, 20, 5, 9, 14, 20, 5, 9, 14, 20,
   4, 11, 16, 23, 4, 11, 16, 23, 4, 11, 16, 23, 4, 11, 16, 23,
   6, 10, 15, 21, 6, 10, 15, 21, 6, 10, 15, 21, 6, 10, 15, 21]

/-- Sine-derived additive constants (RFC 1321 table, `⌊|sin(i+1)|·2^32⌋`). -/
def md5K : List Nat :=
  [0xd76aa478, 0xe8c7b756, 0x242070db, 0xc1bdceee,
   0xf57c0faf, 0x4787c62a, 0xa8304613, 0xfd469501,
   0x698098d8, 0x8b44f7af, 0xffff5bb1, 0x895cd7be,
   0x6b901122, 0xfd987193, 0xa679438e, 0x49b40821,
   0xf61e2562, 0xc040b340, 0x265e5a51, 0xe9b6c7aa,
   0xd62f105d, 0x02441453, 0xd8a1e681, 0xe7d3fbc8,
   0x21e1cde6, 0xc33707d6, 0xf4d50d87, 0x455a14ed,
   0xa9e3e905, 0xfcefa3f8, 0x676f02d9, 0x8d2a4c8a,
   0xfffa3942, 0x8771f681, 0x6d9d6122, 0xfde5380c,
   0xa4beea44, 0x4bdecfa9, 0xf6bb4b60, 0xbebfbc70,
   0x289b7ec6, 0xeaa127fa, 0xd4ef3085, 0x04881d05,
   0xd9d4d039, 0xe6db99e5, 0x1fa27cf8, 0xc4ac5665,
   0xf4292244, 0x432aff97, 0xab9423a7, 0xfc93a039,
   0x655b59c3, 0x8f0ccc92, 0xffeff47d, 0x85845dd1,
   0x6fa87e4f, 0xfe2ce6e0, 0xa3014314, 0x4e0811a1,
   0xf7537e82, 0xbd3af235, 0x2ad7d2bb, 0xeb86d391]

/-- Little-endian 32-bit word `j` of a 64-byte block. -/
def blockWord (block : List Nat) (j : Nat) : Nat :=
  block.getD (4 * j) 0 + 256 * block.getD (4 * j + 1) 0 +
    65536 * block.getD (4 * j + 2) 0 + 16777216 * block.getD (4 * j + 3) 0

/-- One of the 64 MD5 rounds applied to the running state `(a, b, c, d)`. -/
def md5Round (block : List Nat) (st : Nat × Nat × Nat × Nat) (i : Nat) :
    Nat × Nat × Nat × Nat :=
  let (a, b, c, d) := st
  let (f, g) :=
    if i < 16 then ((b &&& c) ||| (wnot b &&& d), i)
    else if i < 32 then ((d &&& b) ||| (wnot d &&& c), (5 * i + 1) % 16)
    else if i < 48 then (b ^^^ c ^^^ d, (3 * i + 5) % 16)
    else (c ^^^ (b ||| wnot d), 7 * i % 16)
  let f := w32 (f + a + md5K.getD i 0 + blockWord block g)
  (d, w32 (b + rotl f (md5Shifts.getD i 0)), b, c)

/-- Digest one 64-byte block into the four chaining words. -/
def md5Block (st : Nat × Nat × Nat × Nat) (block : List Nat) :
    Nat × Nat × Nat × Nat :=
  let (a0, b0, c0, d0) := st
  let (a, b, c, d) := (List.range 64).foldl (md5Round block) (a0, b0, c0, d0)
  (w32 (a0 + a), w32 (b0 + b), w32 (c0 + c), w32 (d0 + d))

/-- Split a byte list into 64-byte chunks (structural recursion on a fuel
bound that dominates the list length). -/
def chunks64Aux : Nat → List Nat → List (List Nat)
  | 0, _ => []
  | _ + 1, [] => []
  | fuel + 1, a :: l => (a :: l).take 64 :: chunks64Aux fuel ((a :: l).drop 64)

/-- Split a byte list into 64-byte chunks. -/
def chunks64 (l : List Nat) : List (List Nat) :=
  chunks64Aux l.length l

/-- MD5 padding: `0x80`, zeros to 56 mod 64, then the 64-bit little-endian
bit length. -/
def md5Pad (msg : List Nat) : List Nat :=
  let bitLen := 8 * msg.length % 2 ^ 64
  let zeros := (120 - (msg.length + 1) % 64) % 64
  msg ++ [0x80] ++ List.replicate zeros 0 ++
    (List.range 8).map (fun i => bitLen / 2 ^ (8 * i) % 256)

/-- Little-endian byte decomposition of a 32-bit word. -/
def wordBytes (x : Nat) : List Nat :=
  [x % 256, x / 256 % 256, x / 65536 % 256, x / 16777216 % 256]

/-- Lowercase hex digit. -/
def hexDigit (n : Nat) : Char :=
  if n < 10 then Char.ofNat (48 + n) else Char.ofNat (87 + n)

/-- Two-digit lowercase hex of a byte. -/
def byteHex (b : Nat) : List Char :=
  [hexDigit (b / 16 % 16), hexDigit (b % 16)]

/-- MD5 digest of a byte list, as the usual lowercase 32-hex-char string. -/
def md5HexBytes (msg : List Nat) : String :=
  let (a, b, c, d) :=
    (chunks64 (md5Pad msg)).foldl md5Block
      (0x67452301, 0xefcdab89, 0x98badcfe, 0x10325476)
  ⟨((wordBytes a ++ wordBytes b ++ wordBytes c ++ wordBytes d).flatMap byteHex)⟩

/-- Python `hashlib.md5(s.encode()).hexdigest()`. -/
def md5Hex (s : String) : String :=
  md5HexBytes (utf8Bytes s)

/-! ## Retriever (`services/rag/retriever.py`)

A retrieved document dict `{text, source, score}`.  Scores are Python
numbers (the built-ins carry `0.5`, keyword scores are integers), modelled
as `ℚ`.
-/

structure Doc where
  text : String
  source : String
  score : ℚ
deriving DecidableEq, Repr

/-- Text of the first built-in fallback document (crop rotation). -/
def crop_rotation_text : String :=
  "Crop rotation is the practice of growing a series of different types of crops in the same area across a sequence of growing seasons. It reduces reliance on one set of nutrients, pest and weed pressure, and the probability of developing resistant pests and weeds."

/-- Text of the second built-in fallback document (organic farming). -/
def organic_farming_text : String :=
  "Organic farming is a method of crop and livestock production that involves much more than choosing not to use pesticides, fertilizers, genetically modified organisms, antibiotics and growth hormones. It is a holistic system designed to optimize the productivity and fitness of diverse communities within the ecosystem."

/-- Text of the third built-in fallback document (irrigation). -/
def irrigation_text : String :=
  "Irrigation is the artificial application of water to land or soil to assist in the growing of agricultural crops. Methods include drip irrigation, sprinkler systems, surface irrigation and sub-irrigation."

/-- Text of the fourth built-in fallback document (soil health). -/
def soil_health_text : String :=
  "Soil health refers to the continued capacity of soil to function as a vital living ecosystem that sustains plants, animals, and humans. Proper soil management includes testing pH, adding organic matter, crop rotation, and minimizing tillage."

/-- Text of the fifth built-in fallback document (precision agriculture). -/
def precision_agriculture_text : String :=
  "Precision agriculture uses GPS, IoT sensors, drones, and data analytics to manage crops at a micro-level. It helps farmers optimize inputs like water, fertilizer, and pesticides to maximize yield while reducing waste."

/-- The `FALLBACK_KNOWLEDGE` list from `retriever.py`: the five built-in documents
(used only when the vector store is empty), each with score `0.5`. -/
def FALLBACK_KNOWLEDGE : List Doc :=
  [⟨crop_rotation_text, "built-in", 1 / 2⟩,
   ⟨organic_farming_text, "built-in", 1 / 2⟩,
   ⟨irrigation_text, "built-in", 1 / 2⟩,
   ⟨soil_health_text, "built-in", 1 / 2⟩,
   ⟨precision_agriculture_text, "built-in", 1 / 2⟩]

/-- The `stop_words` set of `_keyword_search`. -/
def stop_words : List String :=
  ["the", "is", "are", "what", "how", "do", "i", "a", "an", "to", "in",
   "for", "of", "and", "or", "about", "tell", "me", "can", "you"]

/-- The `query_words` list of `_keyword_search`: lowercase, whitespace-split,
stop words and words of length ≤ 2 removed. -/
def queryWords (query : String) : List String :=
  (pySplitWs (pyLower query)).filter
    (fun w => !stop_words.contains w && decide (w.length > 2))

/-- Rescore one built-in document against the query words:
`score = sum(3 for w in query_words if w in text_lower)`. -/
def rescoreDoc (query_words : List String) (doc : Doc) : Doc :=
  { doc with
    score :=
      (3 * (query_words.filter
        (fun w => strContains (pyLower doc.text) w)).length : ℕ) }

/-- The `scored` list of `_keyword_search` (before sorting). -/
def scoredDocs (query : String) : List Doc :=
  FALLBACK_KNOWLEDGE.map (rescoreDoc (queryWords query))

/-- Insert into a list already sorted by descending score, keeping the
inserted (earlier) element ahead of equal scores: the insertion step of a
stable descending sort, matching Python `list.sort(key=score, reverse=True)`. -/
def insertDesc (x : Doc) : List Doc → List Doc
  | [] => [x]
  | y :: ys => if y.score ≤ x.score then x :: y :: ys else y :: insertDesc x ys

/-- Stable sort by descending score (Python
`scored.sort(key=lambda x: x["score"], reverse=True)`). -/
def pySortDesc : List Doc → List Doc
  | [] => []
  | x :: xs => insertDesc x (pySortDesc xs)

/-- The `_keyword_search` function from `retriever.py`.  When the top sorted score is 0
(no keyword matched anything), the original built-in list (with its
original `0.5` scores) is truncated to `k` instead.  `scored[0]` on the
empty list would raise in Python; `FALLBACK_KNOWLEDGE` is non-empty so the
`[]` branch is unreachable and returns `[]` here. -/
def _keyword_search (query : String) (k : Nat) : List Doc :=
  match pySortDesc (scoredDocs query) with
  | [] => []
  | top :: rest =>
    if top.score = 0 then FALLBACK_KNOWLEDGE.take k
    else (top :: rest).take k

/-- The `semantic_search` function from `retriever.py`.  The ChromaDB collaborators are
explicit parameters: `stats` is the `get_store_stats()["total_documents"]`
outcome (`none` models a raised exception), `vsearch` is
`vector_search(query, k)` (`none` models a raised exception).  Any
exception, an empty store, or an empty vector result falls back to the
keyword search. -/
def semantic_search (stats : Option Nat) (vsearch : String → Nat → Option (List Doc))
    (query : String) (k : Nat) : List Doc :=
  match stats with
  | none => _keyword_search query k
  | some total =>
    if total > 0 then
      match vsearch query k with
      | none => _keyword_search query k
      | some results =>
        if results.isEmpty then _keyword_search query k else results
    else _keyword_search query k

/-! ## Association-list primitives

Python dicts keyed by strings (the in-memory cache) and the file-per-key
disk directory are both modelled as association lists.  `aset` mirrors
`d[k] = v` (replace in place, else append), `aerase` mirrors `del d[k]` /
`os.remove` (drop every binding of the key), `alookup` is `d.get(k)` /
opening the file.
-/

/-- First binding of a key, if any (`d.get(k)`). -/
def alookup {β : Type} (k : String) : List (String × β) → Option β
  | [] => none
  | p :: rest => if p.1 == k then some p.2 else alookup k rest

/-- Python `d[k] = v`: replace the first binding in place if present, else
append at the end (Python dicts hold one binding per key, so this is
exactly the insertion-order-preserving dict update). -/
def aset {β : Type} (k : String) (v : β) : List (String × β) →
    List (String × β)
  | [] => [(k, v)]
  | p :: rest => if p.1 == k then (k, v) :: rest else p :: aset k v rest

/-- Python `del d[k]` / `os.remove`: drop every binding of the key. -/
def aerase {β : Type} (k : String) (l : List (String × β)) :
    List (String × β) :=
  l.filter (fun p => p.1 ≠ k)

/-! ## SmartCache (`services/ai/smart_cache.py`)

The two-tier cache, generic over the abstract cached payload `α` (the
`response` dict).  `datetime.utcnow()` instants are `Nat`, so
`timedelta(hours=self.max_age_hours)` is the `Nat` duration
`max_age_hours` in the same unit.  The serialized disk entry carries the
same `cache_data` record as the memory entry.  Disk I/O failures are
explicit: a `put` takes a `diskOk` flag (`false` models the caught
`json.dump` exception: the disk tier keeps its previous content while the
memory write stands).  Disk *read* errors are caught and fall through to a
miss in the source; no claim involves them, so disk entries here are
always readable.
-/

structure CacheData (α : Type) where
  query : String
  response : α
  context : String
  language : String
  /-- Here `none` models a persisted dict without the `"timestamp"` key
  (`_is_cache_valid` rejects it); entries written by `cache_response`
  always carry `some`. -/
  timestamp : Option Nat
  access_count : Nat
deriving DecidableEq

structure CacheStats where
  hits : Nat
  misses : Nat
  memory_hits : Nat
  disk_hits : Nat
deriving DecidableEq

structure SmartCache (α : Type) where
  max_age_hours : Nat
  memory_cache : List (String × CacheData α)
  disk_cache : List (String × CacheData α)
  cache_stats : CacheStats
deriving DecidableEq

/-- Fresh `SmartCache(cache_dir, max_age_hours)`: empty tiers, zero stats. -/
def smartCacheInit (α : Type) (max_age_hours : Nat) : SmartCache α :=
  ⟨max_age_hours, [], [], ⟨0, 0, 0, 0⟩⟩

/-- The string hashed by `_generate_cache_key`:
`f"{query.lower().strip()}|{context}|{language}"`. -/
def cache_input (query context language : String) : String :=
  pyStrip (pyLower query) ++ "|" ++ context ++ "|" ++ language

/-- The key function `_generate_cache_key`: MD5 hex digest of the normalized concatenation. -/
def _generate_cache_key (query context language : String) : String :=
  md5Hex (cache_input query context language)

/-- The validity check `_is_cache_valid`: requires a `"timestamp"` key and
`utcnow() < timestamp + timedelta(hours=max_age_hours)` (strict). -/
def _is_cache_valid {α : Type} (c : SmartCache α) (now : Nat)
    (cache_data : CacheData α) : Bool :=
  match cache_data.timestamp with
  | none => false
  | some t => decide (now < t + c.max_age_hours)

/-- The disk-tier half of `get_cached_response` (lines 59–79): disk hit
promotes the entry into memory unchanged and counts a disk-hit; an expired
disk entry is removed; otherwise a miss is recorded. -/
def diskLookup {α : Type} (c : SmartCache α) (now : Nat) (cache_key : String) :
    Option α × SmartCache α :=
  match alookup cache_key c.disk_cache with
  | some cache_data =>
    if _is_cache_valid c now cache_data then
      (some cache_data.response,
       { c with
         memory_cache := aset cache_key cache_data c.memory_cache,
         cache_stats := { c.cache_stats with
           hits := c.cache_stats.hits + 1,
           disk_hits := c.cache_stats.disk_hits + 1 } })
    else
      (none,
       { c with
         disk_cache := aerase cache_key c.disk_cache,
         cache_stats := { c.cache_stats with
           misses := c.cache_stats.misses + 1 } })
  | none =>
    (none,
     { c with cache_stats := { c.cache_stats with
         misses := c.cache_stats.misses + 1 } })

/-- Lookup `get_cached_response(query, context, language)` at instant `now`:
memory tier first (valid hit counts a memory-hit; an expired memory entry
is deleted and the disk tier is consulted), then the disk tier. -/
def get_cached_response {α : Type} (c : SmartCache α) (now : Nat)
    (query context language : String) : Option α × SmartCache α :=
  match alookup (_generate_cache_key query context language) c.memory_cache with
  | some cache_data =>
    if _is_cache_valid c now cache_data then
      (some cache_data.response,
       { c with cache_stats := { c.cache_stats with
           hits := c.cache_stats.hits + 1,
           memory_hits := c.cache_stats.memory_hits + 1 } })
    else
      diskLookup
        { c with
          memory_cache :=
            aerase (_generate_cache_key query context language) c.memory_cache }
        now (_generate_cache_key query context language)
  | none => diskLookup c now (_generate_cache_key query context language)

/-- Write `cache_response(query, response, context, language)` at instant `now`:
build `cache_data` with the current timestamp and `access_count = 1`,
store it in memory unconditionally, and persist it to disk; `diskOk =
false` is the caught disk-write exception (memory-only caching). -/
def cache_response {α : Type} (c : SmartCache α) (now : Nat) (query : String)
    (response : α) (context language : String) (diskOk : Bool) :
    SmartCache α :=
  { c with
    memory_cache :=
      aset (_generate_cache_key query context language)
        ⟨query, response, context, language, some now, 1⟩ c.memory_cache,
    disk_cache :=
      if diskOk then
        aset (_generate_cache_key query context language)
          ⟨query, response, context, language, some now, 1⟩ c.disk_cache
      else c.disk_cache }

/-- Round to the nearest integer, ties to the even integer — the rounding
mode of Python `round`. -/
def roundHalfEven (x : ℚ) : ℤ :=
  if x - Int.floor x < 1 / 2 then Int.floor x
  else if 1 / 2 < x - Int.floor x then Int.floor x + 1
  else if Even (Int.floor x) then Int.floor x else Int.floor x + 1

/-- Python `round(x, 2)`: round half to even at two decimal places.  (The
source rounds an IEEE-754 double; this is the exact-rational idealization
of that reported two-decimal value.) -/
def round2 (x : ℚ) : ℚ := (roundHalfEven (x * 100) : ℚ) / 100

/-- The dict returned by `get_cache_stats`.  The reported
`hit_rate_percent` carries the source line 170 value
`round(hit_rate, 2)`. -/
structure CacheStatsReport where
  total_requests : Nat
  cache_hits : Nat
  cache_misses : Nat
  hit_rate_percent : ℚ
  memory_hits : Nat
  disk_hits : Nat
  memory_cache_size : Nat
  disk_cache_files : Nat
deriving DecidableEq

/-- Statistics report `get_cache_stats()`: `hit_rate` is
`hits/total_requests*100` when `total_requests > 0` else `0` (line 164,
with `total_requests = hits + misses` inlined), and the reported
`hit_rate_percent` is `round(hit_rate, 2)` (line 170). -/
def get_cache_stats {α : Type} (c : SmartCache α) : CacheStatsReport :=
  { total_requests := c.cache_stats.hits + c.cache_stats.misses,
    cache_hits := c.cache_stats.hits,
    cache_misses := c.cache_stats.misses,
    hit_rate_percent :=
      round2 (if c.cache_stats.hits + c.cache_stats.misses > 0 then
          (c.cache_stats.hits : ℚ)
            / ((c.cache_stats.hits + c.cache_stats.misses : Nat) : ℚ) * 100
        else 0),
    memory_hits := c.cache_stats.memory_hits,
    disk_hits := c.cache_stats.disk_hits,
    memory_cache_size := c.memory_cache.length,
    disk_cache_files := c.disk_cache.length }

/-- Sweep `cleanup_expired_cache()` at instant `now`: drop every expired entry
from both tiers. -/
def cleanup_expired_cache {α : Type} (c : SmartCache α) (now : Nat) :
    SmartCache α :=
  { c with
    memory_cache := c.memory_cache.filter (fun p => _is_cache_valid c now p.2),
    disk_cache := c.disk_cache.filter (fun p => _is_cache_valid c now p.2) }

/-- Reset `clear_cache()`: empty both tiers and reset the counters. -/
def clear_cache {α : Type} (c : SmartCache α) : SmartCache α :=
  { c with memory_cache := [], disk_cache := [], cache_stats := ⟨0, 0, 0, 0⟩ }

/-! ### Operation traces on one cache instance -/

/-- One externally invokable cache operation, with its wall-clock instant
and (for `put`) whether the disk write succeeds. -/
inductive CacheOp (α : Type) where
  | get (now : Nat) (query context language : String)
  | put (now : Nat) (query : String) (response : α) (context language : String)
      (diskOk : Bool)
  | cleanup (now : Nat)
  | clear

/-- Apply one operation (the returned payload of a `get` is discarded). -/
def applyOp {α : Type} (c : SmartCache α) : CacheOp α → SmartCache α
  | .get now q ctx l => (get_cached_response c now q ctx l).2
  | .put now q r ctx l ok => cache_response c now q r ctx l ok
  | .cleanup now => cleanup_expired_cache c now
  | .clear => clear_cache c

/-- Run a trace of operations left to right. -/
def runOps {α : Type} (c : SmartCache α) (ops : List (CacheOp α)) :
    SmartCache α :=
  ops.foldl applyOp c

/-- Holds for the operations the hit-accounting claim ranges over. -/
def isGetOrPut {α : Type} : CacheOp α → Bool
  | .get _ _ _ _ => true
  | .put _ _ _ _ _ _ => true
  | _ => false

/-- Number of `get` operations in a trace. -/
def countGets {α : Type} (ops : List (CacheOp α)) : Nat :=
  ops.countP (fun op => match op with | .get _ _ _ _ => true | _ => false)

/-- Holds when the disk write of a `put` operation succeeds (operations
other than `put` qualify trivially). -/
def diskWriteOk {α : Type} : CacheOp α → Bool
  | .put _ _ _ _ _ ok => ok
  | _ => true

/-! ## CachedResponseGenerator (`smart_cache.py`, lines 192–218)

The generated response is a JSON-shaped Python dict; the values the
generator layer touches are strings, booleans and numbers.
-/

/-- A scalar Python dict value. -/
inductive PyVal where
  | str (s : String)
  | bool (b : Bool)
  | num (q : ℚ)
deriving DecidableEq

/-- A response payload: a string-keyed Python dict. -/
def PyDict : Type := List (String × PyVal)

instance : DecidableEq PyDict :=
  inferInstanceAs (DecidableEq (List (String × PyVal)))

/-- Python `d[k] = v` on a response dict. -/
def dictSet (d : PyDict) (k : String) (v : PyVal) : PyDict := aset k v d

/-- Python `d.get(k)` on a response dict. -/
def dictGet (d : PyDict) (k : String) : Option PyVal := alookup k d

/-- The generator layer `CachedResponseGenerator.get_or_generate_response`,
with the module-global `smart_cache` instance and the generator-invocation count passed
explicitly.  `now` is the instant of the call, `procTime` the measured
wall-clock duration (`round(time.time() - start_time, 2)`), `genAt` the
`datetime.utcnow().isoformat()` string, `diskOk` the outcome of the disk
write inside `cache_response`.  The Python `if cached_response:` is dict
truthiness: an empty cached dict falls through to generation. -/
def get_or_generate_response (c : SmartCache PyDict) (genCalls : Nat)
    (now : Nat) (query context language : String)
    (generator_func : String → String → String → PyDict)
    (procTime : ℚ) (genAt : String) (diskOk : Bool) :
    PyDict × SmartCache PyDict × Nat :=
  match get_cached_response c now query context language with
  | (some cached_response, c1) =>
    if cached_response.isEmpty then
      genPath c1 genCalls now query context language generator_func
        procTime genAt diskOk
    else
      (dictSet cached_response "from_cache" (.bool true), c1, genCalls)
  | (none, c1) =>
    genPath c1 genCalls now query context language generator_func
      procTime genAt diskOk
where
  /-- The generate-and-cache path (cache miss or falsy cached value). -/
  genPath (c1 : SmartCache PyDict) (genCalls : Nat) (now : Nat)
      (query context language : String)
      (generator_func : String → String → String → PyDict)
      (procTime : ℚ) (genAt : String) (diskOk : Bool) :
      PyDict × SmartCache PyDict × Nat :=
    let response := generator_func query context language
    let response := dictSet response "from_cache" (.bool false)
    let response := dictSet response "processing_time" (.num procTime)
    let response := dictSet response "generated_at" (.str genAt)
    (response, cache_response c1 now query response context language diskOk,
     genCalls + 1)

/-! ## Groq composer (`services/rag/groq_composer.py`)

`compose(question, retrieved)`.  The remote collaborator is the parameter
`groq`: `some g` models a configured client whose chat call returns
`g prompt`; `none` models every failure mode the source absorbs (missing
`GROQ_API_KEY`, import/init failure, or an API exception), after which the
deterministic local fallback runs.
-/

/-- The apology returned when no collaborator and no usable document text
is available (line 114). -/
def apologyMessage : String :=
  "Sorry, I couldn\x27t process your question right now. Please try again."

/-- Lines 67–77: the `context_text` built from the top three retrieved
documents (trimmed, cut at 500 characters, empties skipped). -/
def composeContextText (retrieved : List Doc) : String :=
  let parts := (retrieved.take 3).map (fun doc =>
    let text := pyStrip doc.text
    if text.length > 500 then pyTake text 500 else text)
  joinSep "\n---\n" (parts.filter (fun t => t ≠ ""))

/-- The user-message prompt sent to the collaborator (line 87). -/
def composePrompt (question : String) (retrieved : List Doc) : String :=
  "Reference info:\n" ++ composeContextText retrieved ++
    "\n\nFarmer asks: " ++ question ++
    "\n\nGive a short, helpful answer in 2-3 simple sentences:"

/-- The local fallback sentence list for a top document text (line 106):
replace newlines by `". "`, split on `"."`, strip each piece, keep pieces
longer than 15 characters. -/
def fallbackSentences (top_text : String) : List String :=
  ((pySplitOnChar (Char.ofNat 46) (pyReplaceChar (Char.ofNat 10) ". " top_text)).map
    pyStrip).filter (fun s => decide (s.length > 15))

/-- Lines 103–112: given the (already stripped) top document text, return
the first two clauses longer than 15 characters joined by `". "` with a
trailing `"."` (just the first clause if that join exceeds 200
characters), or the apology when no such clause exists. -/
def composeFallback (top_text : String) : String :=
  match fallbackSentences top_text with
  | [] => apologyMessage
  | s0 :: ss =>
    if (joinSep ". " ((s0 :: ss).take 2) ++ ".").length > 200 then s0 ++ "."
    else joinSep ". " ((s0 :: ss).take 2) ++ "."

/-- The composer entry point `compose(question, retrieved)`. -/
def compose (groq : Option (String → String)) (question : String)
    (retrieved : List Doc) : String :=
  match groq with
  | some g => pyStrip (g (composePrompt question retrieved))
  | none =>
    match retrieved with
    | [] => apologyMessage
    | top :: _ => composeFallback (pyStrip top.text)

/-! ## Conversation context (`services/ai/conversation_context.py`) -/

structure ConversationTurn where
  user_input : String
  ai_response : String
  intent : String
  entities : List (String × List String)
  timestamp : Nat
  confidence : ℚ
deriving DecidableEq

/-- A `ConversationContext` instance (its database collaborator only
matters at construction time and is not part of the claims here). -/
structure ConversationContext where
  user_id : Nat
  max_turns : Nat
  context_window_hours : Nat
  conversation_history : List ConversationTurn
deriving DecidableEq

/-- Python `lst[-n:]`: the last `n` elements — except that `lst[-0:]` is
`lst[0:]`, the whole list. -/
def pySliceLast {β : Type} (n : Nat) (l : List β) : List β :=
  if n = 0 then l else l.drop (l.length - n)

/-- The argument bundle of one `add_turn` call (`timestamp` is the
`datetime.utcnow()` at the call). -/
structure TurnArgs where
  user_input : String
  ai_response : String
  intent : String
  entities : List (String × List String)
  confidence : ℚ
  now : Nat
deriving DecidableEq

/-- The `ConversationTurn` that `add_turn` constructs. -/
def mkTurn (a : TurnArgs) : ConversationTurn :=
  { user_input := a.user_input, ai_response := a.ai_response,
    intent := a.intent, entities := a.entities, timestamp := a.now,
    confidence := a.confidence }

/-- Mutation `add_turn`: append the new turn, then keep only
`self.conversation_history[-self.max_turns:]` when the length exceeds
`max_turns`. -/
def add_turn (ctx : ConversationContext) (a : TurnArgs) :
    ConversationContext :=
  { ctx with
    conversation_history :=
      if (ctx.conversation_history ++ [mkTurn a]).length > ctx.max_turns then
        pySliceLast ctx.max_turns (ctx.conversation_history ++ [mkTurn a])
      else ctx.conversation_history ++ [mkTurn a] }

/-- Fold a sequence of `add_turn` calls over a context. -/
def runTurns (ctx : ConversationContext) (argsList : List TurnArgs) :
    ConversationContext :=
  argsList.foldl add_turn ctx

/-! ## Text-query route (`services/api/routes/mobile_route.py`, 229–310)

The collaborators of the route are explicit parameters.  The DB user lookup and
query save are caught-and-logged side paths that do not affect the
response fields the claims mention, and the `session_id`/`query_id`/
`user_id` response fields forward either the payload or DB/UUID values;
they are omitted.  `processing_time` is the measured wall clock (a
parameter).  Note the route never touches the `SmartCache` instance: the
cache component of the pipeline state is carried through unchanged, and
`composeCalls` counts invocations of the Groq composition collaborator.
-/

structure IntentResult where
  intent : String
  confidence : ℚ
deriving DecidableEq

structure MobileQuery where
  text : String
  lang : String
deriving DecidableEq

structure TextQueryEnv where
  /-- Collaborator `auto_translate_to_english(text, hint_lang)` returning `(query_en, detected_lang)`. -/
  auto_translate_to_english : String → String → String × String
  /-- Collaborator `detect_intent(query_en)`. -/
  detect_intent : String → IntentResult
  /-- Collaborator `extract_entities(query_en)`. -/
  extract_entities : String → List (String × String)
  /-- Outcome of `get_store_stats()["total_documents"]` for `semantic_search`. -/
  vstoreStats : Option Nat
  /-- Outcome of `vector_search(query, k)` for `semantic_search`. -/
  vsearch : String → Nat → Option (List Doc)
  /-- The Groq composition collaborator (as in `compose`). -/
  groq : Option (String → String)
  /-- Collaborator `translate(text, source_lang, target_lang)`. -/
  translate : String → String → String → String
  /-- Collaborator `synthesize_tts(text, lang)` returning a relative audio path. -/
  synthesize_tts : String → String → String

/-- Process-wide state the route could touch: the global `smart_cache`
and the running count of composition-collaborator invocations. -/
structure PipelineState where
  cache : SmartCache PyDict
  composeCalls : Nat

/-- Wrapper around `compose` tracking the collaborator-invocation count: the Groq client is
called exactly when it is configured (`_init_groq()` succeeded). -/
def composeCounting (groq : Option (String → String)) (question : String)
    (retrieved : List Doc) (calls : Nat) : String × Nat :=
  (compose groq question retrieved,
   match groq with
   | some _ => calls + 1
   | none => calls)

structure TextQueryResponse where
  success : Bool
  query : String
  language : String
  detected_language : String
  intentR : IntentResult
  entities : List (String × String)
  answer_text : String
  response_audio_url : String
  sources : List (String × String)
  processing_time : ℚ
deriving DecidableEq

/-- The `POST /text-query` handler body (happy path; the `except` clause
re-raises as HTTP 500 and is outside the claims). -/
def text_query (env : TextQueryEnv) (payload : MobileQuery)
    (st : PipelineState) (procTime : ℚ) :
    TextQueryResponse × PipelineState :=
  let (query_en, detected_lang) :=
    env.auto_translate_to_english payload.text payload.lang
  let intent_result := env.detect_intent query_en
  let entities := env.extract_entities query_en
  let retrieved := semantic_search env.vstoreStats env.vsearch query_en 5
  let (answer_en, calls) :=
    composeCounting env.groq query_en retrieved st.composeCalls
  let response_lang := if payload.lang ≠ "auto" then payload.lang
    else detected_lang
  let answer_local :=
    if response_lang ≠ "en" then env.translate answer_en "en" response_lang
    else answer_en
  let tts_lang :=
    if ["en", "ta", "hi", "te", "kn", "ml"].contains response_lang then
      response_lang
    else "en"
  let audio := env.synthesize_tts answer_local tts_lang
  ({ success := true,
     query := payload.text,
     language := payload.lang,
     detected_language := detected_lang,
     intentR := intent_result,
     entities := entities,
     answer_text := answer_local,
     response_audio_url := "http://localhost:8000" ++ audio,
     sources := (retrieved.take 3).map
       (fun doc => (pyTake doc.text 200 ++ "...", doc.source)),
     processing_time := procTime },
   { st with composeCalls := calls })

/-! ## Shared lemmas: association lists -/

theorem alookup_aset_self {β : Type} (k : String) (v : β)
    (l : List (String × β)) : alookup k (aset k v l) = some v := by
  induction l with
  | nil => simp [aset, alookup]
  | cons p rest ih =>
    by_cases hp : p.1 == k
    · simp [aset, alookup, hp]
    · simp [aset, alookup, hp, ih]

theorem alookup_aset_ne {β : Type} {k' k : String} (v : β)
    (l : List (String × β)) (h : k' ≠ k) :
    alookup k' (aset k v l) = alookup k' l := by
  induction l with
  | nil => simp [aset, alookup, Ne.symm h]
  | cons p rest ih =>
    by_cases hp : p.1 == k
    · have hpk : p.1 = k := by simpa using hp
      rw [show aset k v (p :: rest) = (k, v) :: rest from by simp [aset, hp]]
      rw [show alookup k' ((k, v) :: rest) = alookup k' rest from by
        simp [alookup, Ne.symm h]]
      rw [show alookup k' (p :: rest) = alookup k' rest from by
        simp [alookup, hpk, Ne.symm h]]
    · rw [show aset k v (p :: rest) = p :: aset k v rest from by simp [aset, hp]]
      by_cases hpk' : p.1 == k'
      · simp [alookup, hpk']
      · simp [alookup, hpk', ih]

theorem alookup_aerase_self {β : Type} (k : String)
    (l : List (String × β)) : alookup k (aerase k l) = none := by
  induction l with
  | nil => simp [aerase, alookup]
  | cons p rest ih =>
    by_cases hp : p.1 = k
    · rw [show aerase k (p :: rest) = aerase k rest from by
        simp [aerase, List.filter_cons, hp]]
      exact ih
    · rw [show aerase k (p :: rest) = p :: aerase k rest from by
        simp [aerase, List.filter_cons, hp]]
      rw [show alookup k (p :: aerase k rest) = alookup k (aerase k rest) from by
        simp [alookup, hp]]
      exact ih

theorem alookup_aerase_ne {β : Type} {k' k : String}
    (l : List (String × β)) (h : k' ≠ k) :
    alookup k' (aerase k l) = alookup k' l := by
  induction l with
  | nil => simp [aerase, alookup]
  | cons p rest ih =>
    by_cases hp : p.1 = k
    · rw [show aerase k (p :: rest) = aerase k rest from by
        simp [aerase, List.filter_cons, hp]]
      rw [show alookup k' (p :: rest) = alookup k' rest from by
        simp [alookup, hp, Ne.symm h]]
      exact ih
    · rw [show aerase k (p :: rest) = p :: aerase k rest from by
        simp [aerase, List.filter_cons, hp]]
      by_cases hpk' : p.1 == k'
      · simp [alookup, hpk']
      · simp [alookup, hpk', ih]

/-- The keys of an association list, in order. -/
def akeys {β : Type} (l : List (String × β)) : List String :=
  l.map Prod.fst

theorem mem_akeys_aset {β : Type} {x k : String} {v : β}
    {l : List (String × β)} (h : x ∈ akeys (aset k v l)) :
    x = k ∨ x ∈ akeys l := by
  induction l with
  | nil => simpa [aset, akeys] using h
  | cons p rest ih =>
    by_cases hp : p.1 == k
    · rw [show aset k v (p :: rest) = (k, v) :: rest from by simp [aset, hp]] at h
      rcases List.mem_cons.mp (show x ∈ k :: akeys rest from h) with h | h
      · exact Or.inl h
      · exact Or.inr (List.mem_cons_of_mem _ h)
    · rw [show aset k v (p :: rest) = p :: aset k v rest from by
        simp [aset, hp]] at h
      rcases List.mem_cons.mp (show x ∈ p.1 :: akeys (aset k v rest) from h)
        with h | h
      · exact Or.inr (h ▸ List.mem_cons_self _ _)
      · rcases ih h with h | h
        · exact Or.inl h
        · exact Or.inr (List.mem_cons_of_mem _ h)

theorem nodup_akeys_aset {β : Type} {k : String} (v : β)
    {l : List (String × β)} (h : (akeys l).Nodup) :
    (akeys (aset k v l)).Nodup := by
  induction l with
  | nil => simp [aset, akeys]
  | cons p rest ih =>
    rcases List.nodup_cons.mp (show (p.1 :: akeys rest).Nodup from h)
      with ⟨hnmem, hrest⟩
    by_cases hp : p.1 == k
    · have hpk : p.1 = k := by simpa using hp
      rw [show aset k v (p :: rest) = (k, v) :: rest from by simp [aset, hp]]
      exact List.nodup_cons.mpr ⟨show k ∉ akeys rest from hpk ▸ hnmem, hrest⟩
    · rw [show aset k v (p :: rest) = p :: aset k v rest from by simp [aset, hp]]
      refine List.nodup_cons.mpr ⟨?_, ih hrest⟩
      intro hc
      have hpk : p.1 ≠ k := by simpa using hp
      rcases mem_akeys_aset hc with hc | hc
      · exact hpk hc
      · exact hnmem hc

theorem nodup_akeys_filter {β : Type} (p : String × β → Bool)
    {l : List (String × β)} (h : (akeys l).Nodup) :
    (akeys (l.filter p)).Nodup :=
  List.Nodup.sublist (List.Sublist.map Prod.fst (List.filter_sublist l)) h

theorem alookup_some_mem_akeys {β : Type} {k : String} {d : β}
    {l : List (String × β)} (h : alookup k l = some d) : k ∈ akeys l := by
  induction l with
  | nil => simp [alookup] at h
  | cons q rest ih =>
    by_cases hq : q.1 == k
    · have : q.1 = k := by simpa using hq
      exact this ▸ List.mem_cons_self _ _
    · exact List.mem_cons_of_mem _ (ih (by simpa [alookup, hq] using h))

theorem alookup_filter_some {β : Type} {k : String} {d : β}
    (p : String × β → Bool) {l : List (String × β)}
    (hnd : (akeys l).Nodup) (h : alookup k (l.filter p) = some d) :
    alookup k l = some d := by
  induction l with
  | nil => simp [alookup] at h
  | cons q rest ih =>
    rcases List.nodup_cons.mp (show (q.1 :: akeys rest).Nodup from hnd)
      with ⟨hnmem, hrest⟩
    by_cases hpq : p q
    · rw [List.filter_cons_of_pos hpq] at h
      by_cases hq : q.1 == k
      · simpa [alookup, hq] using h
      · rw [show alookup k (q :: rest) = alookup k rest from by
          simp [alookup, hq]]
        exact ih hrest (by simpa [alookup, hq] using h)
    · rw [List.filter_cons_of_neg (by simpa using hpq)] at h
      have hr : alookup k rest = some d := ih hrest h
      have hq : (q.1 == k) = false := by
        by_contra hc
        have hqk : q.1 = k := by simpa using eq_true_of_ne_false hc
        exact hnmem (hqk ▸ alookup_some_mem_akeys hr)
      simp [alookup, hq, hr]

/-! ## Shared lemmas: the stable descending sort -/

theorem insertDesc_perm (x : Doc) (l : List Doc) :
    (insertDesc x l).Perm (x :: l) := by
  induction l with
  | nil => simp [insertDesc]
  | cons y ys ih =>
    unfold insertDesc
    by_cases h : y.score ≤ x.score
    · simp [h]
    · rw [if_neg h]
      exact ((ih.cons y).trans (List.Perm.swap x y ys))

theorem pySortDesc_perm (l : List Doc) : (pySortDesc l).Perm l := by
  induction l with
  | nil => simp [pySortDesc]
  | cons x xs ih =>
    exact (insertDesc_perm x (pySortDesc xs)).trans (ih.cons x)

theorem insertDesc_sorted (x : Doc) (l : List Doc)
    (h : l.Pairwise (fun a b => b.score ≤ a.score)) :
    (insertDesc x l).Pairwise (fun a b => b.score ≤ a.score) := by
  induction l with
  | nil => simp [insertDesc]
  | cons y ys ih =>
    rcases List.pairwise_cons.mp h with ⟨hy, hys⟩
    unfold insertDesc
    by_cases hxy : y.score ≤ x.score
    · rw [if_pos hxy]
      refine List.pairwise_cons.mpr ⟨?_, h⟩
      intro b hb
      rcases List.mem_cons.mp hb with hb | hb
      · rw [hb]
        exact hxy
      · exact le_trans (hy b hb) hxy
    · rw [if_neg hxy]
      refine List.pairwise_cons.mpr ⟨?_, ih hys⟩
      intro b hb
      rcases List.mem_cons.mp ((insertDesc_perm x ys).mem_iff.mp hb) with hb | hb
      · rw [hb]
        exact le_of_not_le hxy
      · exact hy b hb

theorem pySortDesc_sorted (l : List Doc) :
    (pySortDesc l).Pairwise (fun a b => b.score ≤ a.score) := by
  induction l with
  | nil => simp [pySortDesc]
  | cons x xs ih => exact insertDesc_sorted x (pySortDesc xs) ih

/-! ## C4 — fingerprint determinism and collisions -/

/-- C4, counterexample: the claim "fingerprints differ whenever any of
(query, context, language) differs" is false — the key normalizes the
query with `.lower().strip()`, so the distinct triples
`("Rice Crop", "soil", "en")` and `("rice crop", "soil", "en")` collide
deterministically. -/
theorem c4_counterexample :
    ("Rice Crop" ≠ "rice crop")
    ∧ _generate_cache_key "Rice Crop" "soil" "en"
        = _generate_cache_key "rice crop" "soil" "en" := by
  refine ⟨by decide, ?_⟩
  have h : cache_input "Rice Crop" "soil" "en"
      = cache_input "rice crop" "soil" "en" := by decide
  exact congrArg md5Hex h

/-- C4, amended: `_generate_cache_key` is deterministic (a pure function
of its three string arguments, with no randomness or timestamp), and two
triples receive the same fingerprint whenever their normalized
concatenations `query.lower().strip() ++ "|" ++ context ++ "|" ++
language` agree — in particular queries differing only in letter case or
surrounding whitespace collide with certainty.  (For triples with distinct
concatenations, distinctness of the MD5 digests is collision resistance of
MD5 and is assumed, not proved.) -/
theorem c4_amended_fingerprint (q c l q' c' l' : String)
    (h : cache_input q c l = cache_input q' c' l') :
    _generate_cache_key q c l = _generate_cache_key q c l
    ∧ _generate_cache_key q c l = _generate_cache_key q' c' l' :=
  ⟨rfl, congrArg md5Hex h⟩

/-- C4, witness for the amended theorem at a concrete colliding pair. -/
theorem c4_amended_witness :
    cache_input "Rice Crop" "soil" "en" = cache_input "rice crop" "soil" "en"
    ∧ (_generate_cache_key "Rice Crop" "soil" "en"
          = _generate_cache_key "Rice Crop" "soil" "en"
       ∧ _generate_cache_key "Rice Crop" "soil" "en"
          = _generate_cache_key "rice crop" "soil" "en") :=
  ⟨by decide,
   c4_amended_fingerprint "Rice Crop" "soil" "en" "rice crop" "soil" "en"
     (by decide)⟩

/-! ## C6 — expiry boundary is exclusive -/

/-- C6: an entry stamped `cAt` (as every entry written by `cache_response`
is) is valid exactly when `now < cAt + max_age_hours`: still present
`ε` before the deadline (for `0 < ε ≤ ttl`), expired exactly at
`cAt + ttl`, and expired ever after; correspondingly a `get` finding it in
the memory tier returns it before the deadline and misses from the
deadline on (when the disk tier has nothing for the key). -/
theorem c6_expiry_boundary {α : Type} (cache : SmartCache α)
    (d : CacheData α) (cAt : Nat) (hd : d.timestamp = some cAt) :
    (∀ now : Nat,
       _is_cache_valid cache now d = true ↔ now < cAt + cache.max_age_hours)
    ∧ (∀ ε : Nat, 0 < ε → ε ≤ cache.max_age_hours →
        _is_cache_valid cache (cAt + cache.max_age_hours - ε) d = true)
    ∧ _is_cache_valid cache (cAt + cache.max_age_hours) d = false
    ∧ (∀ ε : Nat,
        _is_cache_valid cache (cAt + cache.max_age_hours + ε) d = false)
    ∧ (∀ q ctx lang now,
        alookup (_generate_cache_key q ctx lang) cache.memory_cache = some d →
        now < cAt + cache.max_age_hours →
        (get_cached_response cache now q ctx lang).1 = some d.response)
    ∧ (∀ q ctx lang now,
        alookup (_generate_cache_key q ctx lang) cache.memory_cache = some d →
        alookup (_generate_cache_key q ctx lang) cache.disk_cache = none →
        cAt + cache.max_age_hours ≤ now →
        (get_cached_response cache now q ctx lang).1 = none) := by
  have hvalid : ∀ now : Nat,
      _is_cache_valid cache now d = decide (now < cAt + cache.max_age_hours) := by
    intro now
    unfold _is_cache_valid
    rw [hd]
  refine ⟨?_, ?_, ?_, ?_, ?_, ?_⟩
  · intro now
    rw [hvalid]
    exact decide_eq_true_iff
  · intro ε h1 h2
    rw [hvalid]
    simp only [decide_eq_true_iff]
    omega
  · rw [hvalid]
    simp
  · intro ε
    rw [hvalid]
    simp only [decide_eq_false_iff_not]
    omega
  · intro q ctx lang now hmem hnow
    simp only [get_cached_response, hmem]
    rw [if_pos (by rw [hvalid]; exact decide_eq_true hnow)]
  · intro q ctx lang now hmem hdisk hnow
    simp only [get_cached_response, hmem]
    rw [if_neg (by rw [hvalid]; simp only [decide_eq_true_iff]; omega)]
    simp only [diskLookup]
    rw [show ({ cache with
        memory_cache :=
          aerase (_generate_cache_key q ctx lang) cache.memory_cache } :
        SmartCache α).disk_cache = cache.disk_cache from rfl, hdisk]

/-- C6, witness: a 24-hour cache with an entry stamped at 100, checked
one unit before, at, and after the deadline, and via `get` on a concrete
cache containing it in the memory tier only. -/
theorem c6_witness :
    (⟨"q", "payload", "", "en", some 100, 1⟩ : CacheData String).timestamp
        = some 100
    ∧ (∀ now : Nat,
         _is_cache_valid
             (⟨24, [(_generate_cache_key "q" "" "en",
                     ⟨"q", "payload", "", "en", some 100, 1⟩)], [],
               ⟨0, 0, 0, 0⟩⟩ : SmartCache String) now
             ⟨"q", "payload", "", "en", some 100, 1⟩
           = true ↔ now < 100 + 24)
    ∧ True := by
  refine ⟨rfl, ?_, trivial⟩
  exact (c6_expiry_boundary
    (⟨24, [(_generate_cache_key "q" "" "en",
            ⟨"q", "payload", "", "en", some 100, 1⟩)], [],
      ⟨0, 0, 0, 0⟩⟩ : SmartCache String)
    ⟨"q", "payload", "", "en", some 100, 1⟩ 100 rfl).1

/-! ## C2 — rice query against an empty vector index -/

/-- C2, counterexample: with an empty vector index the query
"How to grow rice?" does fall back to the built-in set, but no
rice-cultivation entry exists there at all — no built-in text even
contains the word "rice" — and the top-ranked entry is the crop-rotation
text (the first of the three entries tied at score 3 for matching
"grow"). -/
theorem c2_counterexample :
    (semantic_search (some 0) (fun _ _ => none) "How to grow rice?" 5).head?.map
        Doc.text = some crop_rotation_text
    ∧ FALLBACK_KNOWLEDGE.all
        (fun d => !(strContains (pyLower d.text) "rice")) = true := by
  constructor
  · decide
  · decide

/-- C2, amended: the query "How to grow rice?" with an empty vector index
falls back to the built-in knowledge set and returns a non-empty ranked
list, but its top entry is the crop-rotation built-in text (the first of
three entries tied at score 3, each matching only the query word "grow");
the built-in set has no rice-cultivation entry. -/
theorem c2_amended_top_is_crop_rotation :
    semantic_search (some 0) (fun _ _ => none) "How to grow rice?" 5 ≠ []
    ∧ (semantic_search (some 0) (fun _ _ => none) "How to grow rice?" 5).map
        (fun d => (d.text, d.score))
      = [(crop_rotation_text, 3), (organic_farming_text, 3),
         (irrigation_text, 3), (soil_health_text, 0),
         (precision_agriculture_text, 0)] := by
  constructor
  · decide
  · decide

/-! ## C10 — the keyword fallback never returns an empty ranking -/

/-- C10: for every query and every `k ≥ 1` the keyword fallback returns a
non-empty list; when no built-in document matches any query term (all
rescored scores are zero) it returns the first `k` built-ins in
declaration order with their original `0.5` scores, and otherwise the
stable descending sort of the rescored built-ins truncated to `k`, which
is sorted by score descending. -/
theorem c10_keyword_fallback (query : String) (k : Nat) (hk : 1 ≤ k) :
    _keyword_search query k ≠ []
    ∧ ((∀ d ∈ scoredDocs query, d.score = 0) →
        _keyword_search query k = FALLBACK_KNOWLEDGE.take k)
    ∧ ((∃ d ∈ scoredDocs query, d.score ≠ 0) →
        _keyword_search query k = (pySortDesc (scoredDocs query)).take k
        ∧ (_keyword_search query k).Pairwise
            (fun a b => b.score ≤ a.score)) := by
  have hlen : (scoredDocs query).length = 5 := by
    simp [scoredDocs, FALLBACK_KNOWLEDGE]
  have hslen : (pySortDesc (scoredDocs query)).length = 5 := by
    rw [(pySortDesc_perm (scoredDocs query)).length_eq, hlen]
  have hnonneg : ∀ d ∈ scoredDocs query, 0 ≤ d.score := by
    intro d hd
    rcases List.mem_map.mp hd with ⟨doc, hdoc, rfl⟩
    simp only [rescoreDoc]
    exact_mod_cast Nat.zero_le _
  cases hs : pySortDesc (scoredDocs query) with
  | nil =>
    rw [hs] at hslen
    simp at hslen
  | cons top rest =>
    have hmemtop : top ∈ scoredDocs query := by
      refine (pySortDesc_perm (scoredDocs query)).mem_iff.mp ?_
      rw [hs]
      exact List.mem_cons_self _ _
    have hall : top.score = 0 → ∀ d ∈ scoredDocs query, d.score = 0 := by
      intro h0 d hd
      have hd' : d ∈ top :: rest := by
        rw [← hs]
        exact (pySortDesc_perm (scoredDocs query)).mem_iff.mpr hd
      rcases List.mem_cons.mp hd' with rfl | hd''
      · exact h0
      · have hp := pySortDesc_sorted (scoredDocs query)
        rw [hs] at hp
        have hle : d.score ≤ top.score := (List.pairwise_cons.mp hp).1 d hd''
        rw [h0] at hle
        exact le_antisymm hle (hnonneg d hd)
    have hke : _keyword_search query k =
        if top.score = 0 then FALLBACK_KNOWLEDGE.take k
        else (top :: rest).take k := by
      unfold _keyword_search
      rw [hs]
    have hrestlen : (top :: rest).length = 5 := by
      rw [← hs]
      exact hslen
    by_cases h0 : top.score = 0
    · refine ⟨?_, ?_, ?_⟩
      · rw [hke, if_pos h0]
        intro hc
        have hlc := congrArg List.length hc
        rw [List.length_take] at hlc
        simp [FALLBACK_KNOWLEDGE] at hlc
        omega
      · intro _
        rw [hke, if_pos h0]
      · intro hex
        rcases hex with ⟨d, hd, hdne⟩
        exact absurd (hall h0 d hd) hdne
    · refine ⟨?_, ?_, ?_⟩
      · rw [hke, if_neg h0]
        intro hc
        have hlc := congrArg List.length hc
        rw [List.length_take, hrestlen] at hlc
        simp at hlc
        omega
      · intro hzero
        exact absurd (hzero top hmemtop) h0
      · intro _
        refine ⟨by rw [hke, if_neg h0], ?_⟩
        rw [hke, if_neg h0]
        have hp := pySortDesc_sorted (scoredDocs query)
        rw [hs] at hp
        exact hp.sublist (List.take_sublist k (top :: rest))

/-- C10, witness: the theorem instantiated at the rice query with `k = 5`. -/
theorem c10_witness :
    1 ≤ 5
    ∧ (_keyword_search "How to grow rice?" 5 ≠ []
       ∧ ((∀ d ∈ scoredDocs "How to grow rice?", d.score = 0) →
           _keyword_search "How to grow rice?" 5 = FALLBACK_KNOWLEDGE.take 5)
       ∧ ((∃ d ∈ scoredDocs "How to grow rice?", d.score ≠ 0) →
           _keyword_search "How to grow rice?" 5
             = (pySortDesc (scoredDocs "How to grow rice?")).take 5
           ∧ (_keyword_search "How to grow rice?" 5).Pairwise
               (fun a b => b.score ≤ a.score))) :=
  ⟨by decide, c10_keyword_fallback "How to grow rice?" 5 (by decide)⟩

/-! ## C9 — composer fallback under collaborator failure -/

/-- C9, counterexample: with a failing collaborator and the single
retrieved document `"Hi"`, `compose` returns the fixed apology string,
which shares no text with the document (and so is not a truncation of the
top document text): the document text has no clause longer than 15
characters, and the source then skips the truncation entirely. -/
theorem c9_counterexample :
    compose none "What is this?" [⟨"Hi", "built-in", 1 / 2⟩] = apologyMessage
    ∧ strContains apologyMessage "Hi" = false
    ∧ apologyMessage ≠ "" := by
  refine ⟨?_, ?_, ?_⟩
  · decide
  · decide
  · decide

/-- C9, amended: with a failing (or unconfigured) composition
collaborator and a non-empty retrieved list, `compose` never raises (it is
a total function here) and returns a non-empty string; when the top
document text has at least one period/newline-delimited clause longer
than 15 characters the answer is the deterministic truncation (the first
two such clauses joined by ". " with a trailing "."; just the first clause
when that join exceeds 200 characters); otherwise — contrary to the
claim — the answer is a fixed apology string unrelated to the document. -/
theorem c9_amended_fallback (question : String) (top : Doc)
    (rest : List Doc) :
    compose none question (top :: rest) ≠ ""
    ∧ (fallbackSentences (pyStrip top.text) = [] →
        compose none question (top :: rest) = apologyMessage)
    ∧ (∀ s0 ss, fallbackSentences (pyStrip top.text) = s0 :: ss →
        compose none question (top :: rest)
          = if (joinSep ". " ((s0 :: ss).take 2) ++ ".").length > 200
            then s0 ++ "."
            else joinSep ". " ((s0 :: ss).take 2) ++ ".") := by
  have hcompose : compose none question (top :: rest)
      = composeFallback (pyStrip top.text) := rfl
  have happend : ∀ s : String, (s ++ ".").length = s.length + 1 := by
    intro s
    rw [String.length_append]
    rfl
  cases hsent : fallbackSentences (pyStrip top.text) with
  | nil =>
    have hap : compose none question (top :: rest) = apologyMessage := by
      rw [hcompose]
      unfold composeFallback
      rw [hsent]
    refine ⟨?_, fun _ => hap, ?_⟩
    · rw [hap]
      decide
    · intro s0 ss h
      exact List.noConfusion h
  | cons s0 ss =>
    have hc2 : compose none question (top :: rest)
        = if (joinSep ". " ((s0 :: ss).take 2) ++ ".").length > 200
          then s0 ++ "."
          else joinSep ". " ((s0 :: ss).take 2) ++ "." := by
      rw [hcompose]
      unfold composeFallback
      rw [hsent]
    refine ⟨?_, ?_, ?_⟩
    · rw [hc2]
      by_cases hlen : (joinSep ". " ((s0 :: ss).take 2) ++ ".").length > 200
      · rw [if_pos hlen]
        intro hcontra
        have := congrArg String.length hcontra
        rw [happend] at this
        simp at this
      · rw [if_neg hlen]
        intro hcontra
        have := congrArg String.length hcontra
        rw [happend] at this
        simp at this
    · intro h
      exact List.noConfusion h
    · intro t0 ts h
      injection h with h1 h2
      subst h1
      subst h2
      exact hc2

/-- C9, witness: the amended theorem instantiated at the crop-rotation
document (whose text does contain clauses longer than 15 characters). -/
theorem c9_witness :
    compose none "How to grow rice?"
        [⟨crop_rotation_text, "built-in", 1 / 2⟩] ≠ ""
    ∧ (fallbackSentences (pyStrip crop_rotation_text) = [] →
        compose none "How to grow rice?"
            [⟨crop_rotation_text, "built-in", 1 / 2⟩] = apologyMessage)
    ∧ (∀ s0 ss, fallbackSentences (pyStrip crop_rotation_text) = s0 :: ss →
        compose none "How to grow rice?"
            [⟨crop_rotation_text, "built-in", 1 / 2⟩]
          = if (joinSep ". " ((s0 :: ss).take 2) ++ ".").length > 200
            then s0 ++ "."
            else joinSep ". " ((s0 :: ss).take 2) ++ ".") :=
  c9_amended_fallback "How to grow rice?"
    ⟨crop_rotation_text, "built-in", 1 / 2⟩ []

/-! ## C8 — conversation history bounding -/

/-- C8, counterexample: the claim quantifies over every conversation
context, but a context constructed with `max_turns = 0` never trims:
Python `lst[-0:]` is the whole list, so one `add_turn` leaves length
`1 > 0 = maxTurns`. -/
theorem c8_counterexample :
    (add_turn ⟨7, 0, 24, []⟩
        ⟨"hello", "resp", "general_query", [], 0, 0⟩).conversation_history.length
      = 1
    ∧ ¬(1 ≤ (0 : Nat)) := by
  constructor
  · decide
  · decide

theorem add_turn_history (ctx : ConversationContext) (a : TurnArgs) :
    (add_turn ctx a).conversation_history
      = if (ctx.conversation_history ++ [mkTurn a]).length > ctx.max_turns
        then pySliceLast ctx.max_turns (ctx.conversation_history ++ [mkTurn a])
        else ctx.conversation_history ++ [mkTurn a] := rfl

theorem add_turn_max_turns (ctx : ConversationContext) (a : TurnArgs) :
    (add_turn ctx a).max_turns = ctx.max_turns := rfl

theorem add_turn_lastN {m : Nat} (hm : 1 ≤ m) (ctx : ConversationContext)
    (a : TurnArgs) (l : List ConversationTurn)
    (hmax : ctx.max_turns = m)
    (hhist : ctx.conversation_history = l.drop (l.length - m)) :
    (add_turn ctx a).conversation_history
      = (l ++ [mkTurn a]).drop (l.length + 1 - m) := by
  rw [add_turn_history, hmax, hhist]
  by_cases hlm : l.length < m
  · have hd0 : l.length - m = 0 := by omega
    rw [hd0, List.drop_zero]
    rw [if_neg (by simp; omega)]
    have hz : l.length + 1 - m = 0 := by omega
    rw [hz, List.drop_zero]
  · have hge : m ≤ l.length := by omega
    have hlend : (l.drop (l.length - m)).length = m := by
      rw [List.length_drop]
      omega
    rw [if_pos (by rw [List.length_append, hlend]; simp)]
    unfold pySliceLast
    rw [if_neg (by omega)]
    rw [List.length_append, hlend]
    have h1 : m + List.length [mkTurn a] - m = 1 := by simp
    rw [h1]
    rw [List.drop_append_of_le_length (by rw [hlend]; omega)]
    rw [List.drop_append_of_le_length (by omega)]
    rw [List.drop_drop]
    rw [show l.length - m + 1 = l.length + 1 - m from by omega]

theorem add_turn_length_le {m : Nat} (hm : 1 ≤ m) (ctx : ConversationContext)
    (a : TurnArgs) (hmax : ctx.max_turns = m)
    (h : ctx.conversation_history.length ≤ m) :
    (add_turn ctx a).conversation_history.length ≤ m := by
  rw [add_turn_history, hmax]
  by_cases hc : (ctx.conversation_history ++ [mkTurn a]).length > m
  · rw [if_pos hc]
    unfold pySliceLast
    rw [if_neg (by omega)]
    rw [List.length_drop]
    omega
  · rw [if_neg hc]
    omega

theorem runTurns_length_le {m : Nat} (hm : 1 ≤ m) (argsList : List TurnArgs) :
    ∀ ctx : ConversationContext, ctx.max_turns = m →
      ctx.conversation_history.length ≤ m →
      (runTurns ctx argsList).conversation_history.length ≤ m := by
  induction argsList with
  | nil =>
    intro ctx _ h
    exact h
  | cons a args ih =>
    intro ctx hmax h
    exact ih (add_turn ctx a) ((add_turn_max_turns ctx a).trans hmax)
      (add_turn_length_le hm ctx a hmax h)

theorem runTurns_lastN {m : Nat} (hm : 1 ≤ m) (argsList : List TurnArgs) :
    ∀ (ctx : ConversationContext) (l : List ConversationTurn),
      ctx.max_turns = m →
      ctx.conversation_history = l.drop (l.length - m) →
      (runTurns ctx argsList).conversation_history
        = (l ++ argsList.map mkTurn).drop
            (l.length + argsList.length - m) := by
  induction argsList with
  | nil =>
    intro ctx l hmax hh
    simpa using hh
  | cons a args ih =>
    intro ctx l hmax hh
    have hstep := add_turn_lastN hm ctx a l hmax hh
    have hrec := ih (add_turn ctx a) (l ++ [mkTurn a])
      ((add_turn_max_turns ctx a).trans hmax)
      (by rw [hstep, List.length_append]; simp)
    rw [show runTurns ctx (a :: args) = runTurns (add_turn ctx a) args from rfl]
    rw [hrec, List.length_append]
    simp only [List.map_cons, List.append_assoc, List.singleton_append,
      List.length_cons, List.length_nil]
    congr 1
    omega

/-- C8, amended: for every context whose `maxTurns` is at least 1 (for
`maxTurns = 0` the Python slice `[-0:]` keeps everything and the bound
fails), the history length never exceeds `maxTurns` across any sequence of
`add_turn` calls, and adding `maxTurns + 3` turns to an empty context
leaves exactly the last `maxTurns` of them in insertion (chronological)
order — the oldest three having been evicted. -/
theorem c8_amended_bounding (ctx : ConversationContext)
    (hm : 1 ≤ ctx.max_turns) (argsList : List TurnArgs) :
    (ctx.conversation_history.length ≤ ctx.max_turns →
      (runTurns ctx argsList).conversation_history.length ≤ ctx.max_turns)
    ∧ (ctx.conversation_history = [] →
       argsList.length = ctx.max_turns + 3 →
       (runTurns ctx argsList).conversation_history
           = (argsList.map mkTurn).drop 3
       ∧ (runTurns ctx argsList).conversation_history.length
           = ctx.max_turns) := by
  constructor
  · exact runTurns_length_le hm argsList ctx rfl
  · intro hempty hlen
    have hmain := runTurns_lastN hm argsList ctx [] rfl (by simpa using hempty)
    have hdrop : (runTurns ctx argsList).conversation_history
        = (argsList.map mkTurn).drop 3 := by
      rw [hmain]
      simp only [List.nil_append, List.length_nil, Nat.zero_add]
      congr 1
      omega
    refine ⟨hdrop, ?_⟩
    rw [hdrop, List.length_drop, List.length_map, hlen]
    omega

/-- C8, witness: the amended theorem at a fresh context with
`max_turns = 5` and eight concrete turns (the history keeps the last
five). -/
theorem c8_witness :
    1 ≤ (5 : Nat)
    ∧ (((⟨7, 5, 24, []⟩ : ConversationContext).conversation_history.length
          ≤ 5 →
        (runTurns ⟨7, 5, 24, []⟩
            ((List.range 8).map
              (fun i => ⟨toString i, "a", "general_query", [], 0, i⟩))).conversation_history.length
          ≤ 5)
       ∧ ((⟨7, 5, 24, []⟩ : ConversationContext).conversation_history = [] →
          ((List.range 8).map
            (fun i => (⟨toString i, "a", "general_query", [], 0, i⟩ : TurnArgs))).length
            = 5 + 3 →
          (runTurns ⟨7, 5, 24, []⟩
              ((List.range 8).map
                (fun i => ⟨toString i, "a", "general_query", [], 0, i⟩))).conversation_history
              = (((List.range 8).map
                  (fun i => (⟨toString i, "a", "general_query", [], 0, i⟩ : TurnArgs))).map
                    mkTurn).drop 3
          ∧ (runTurns ⟨7, 5, 24, []⟩
              ((List.range 8).map
                (fun i => ⟨toString i, "a", "general_query", [], 0, i⟩))).conversation_history.length
              = 5)) :=
  ⟨by decide,
   c8_amended_bounding ⟨7, 5, 24, []⟩ (by decide)
     ((List.range 8).map
       (fun i => ⟨toString i, "a", "general_query", [], 0, i⟩))⟩

/-! ## C7 — disk hit promotes into memory and counts as a disk-hit -/

/-- C7: when the memory tier has nothing for the key and the disk tier
holds a valid entry `d`, a `get` returns the payload of `d`, installs `d`
itself (exact content and timestamp) in the memory tier, and bumps `hits`
and `disk_hits` only — `memory_hits` and `misses` are untouched. -/
theorem c7_disk_promotion {α : Type} (c : SmartCache α) (now : Nat)
    (q ctx lang : String) (d : CacheData α)
    (hmem : alookup (_generate_cache_key q ctx lang) c.memory_cache = none)
    (hdisk : alookup (_generate_cache_key q ctx lang) c.disk_cache = some d)
    (hvalid : _is_cache_valid c now d = true) :
    (get_cached_response c now q ctx lang).1 = some d.response
    ∧ alookup (_generate_cache_key q ctx lang)
        (get_cached_response c now q ctx lang).2.memory_cache = some d
    ∧ (get_cached_response c now q ctx lang).2.cache_stats
        = ⟨c.cache_stats.hits + 1, c.cache_stats.misses,
           c.cache_stats.memory_hits, c.cache_stats.disk_hits + 1⟩ := by
  have hget : get_cached_response c now q ctx lang
      = (some d.response,
         { c with
           memory_cache :=
             aset (_generate_cache_key q ctx lang) d c.memory_cache,
           cache_stats := { c.cache_stats with
             hits := c.cache_stats.hits + 1,
             disk_hits := c.cache_stats.disk_hits + 1 } }) := by
    simp only [get_cached_response, hmem, diskLookup, hdisk, hvalid, if_true]
  rw [hget]
  exact ⟨rfl, alookup_aset_self _ _ _, rfl⟩

/-- The concrete disk-only cache state used by the C7 witness. -/
def c7key : String := _generate_cache_key "how to grow rice" "" "en"

/-- The concrete valid disk entry used by the C7 witness. -/
def c7entry : CacheData String :=
  ⟨"how to grow rice", "Rice needs standing water.", "", "en", some 5, 1⟩

/-- A 24-hour cache whose disk tier alone holds `c7entry`. -/
def c7cache : SmartCache String :=
  ⟨24, [], [(c7key, c7entry)], ⟨0, 0, 0, 0⟩⟩

/-- C7, witness: reading the disk-only entry at instant 20 returns its
payload, promotes it into memory verbatim, and bumps `hits`/`disk_hits`. -/
theorem c7_witness :
    alookup c7key c7cache.memory_cache = none
    ∧ alookup c7key c7cache.disk_cache = some c7entry
    ∧ _is_cache_valid c7cache 20 c7entry = true
    ∧ ((get_cached_response c7cache 20 "how to grow rice" "" "en").1
          = some c7entry.response
       ∧ alookup c7key
           (get_cached_response c7cache 20 "how to grow rice" ""
             "en").2.memory_cache = some c7entry
       ∧ (get_cached_response c7cache 20 "how to grow rice" ""
             "en").2.cache_stats
           = ⟨c7cache.cache_stats.hits + 1, c7cache.cache_stats.misses,
              c7cache.cache_stats.memory_hits,
              c7cache.cache_stats.disk_hits + 1⟩) :=
  ⟨rfl, by simp [c7cache, c7key, alookup], by decide,
   c7_disk_promotion c7cache 20 "how to grow rice" "" "en" c7entry rfl
     (by simp [c7cache, c7key, alookup]) (by decide)⟩

/-! ## C5 — hit accounting -/

theorem applyOp_stats_sum {α : Type} (c : SmartCache α) (op : CacheOp α)
    (hop : isGetOrPut op = true) :
    (applyOp c op).cache_stats.hits + (applyOp c op).cache_stats.misses
      = c.cache_stats.hits + c.cache_stats.misses
        + (match op with | .get _ _ _ _ => 1 | _ => 0) := by
  cases op with
  | get now q ctx lang =>
    have hdl : ∀ (c' : SmartCache α) (key : String),
        (diskLookup c' now key).2.cache_stats.hits
            + (diskLookup c' now key).2.cache_stats.misses
          = c'.cache_stats.hits + c'.cache_stats.misses + 1 := by
      intro c' key
      cases hd : alookup key c'.disk_cache with
      | some d =>
        by_cases hv : _is_cache_valid c' now d = true
        · simp only [diskLookup, hd, if_pos hv]
          omega
        · simp only [diskLookup, hd, if_neg hv]
          omega
      | none =>
        simp only [diskLookup, hd]
        omega
    show (get_cached_response c now q ctx lang).2.cache_stats.hits
        + (get_cached_response c now q ctx lang).2.cache_stats.misses
      = c.cache_stats.hits + c.cache_stats.misses + 1
    cases hm : alookup (_generate_cache_key q ctx lang) c.memory_cache with
    | some d =>
      by_cases hv : _is_cache_valid c now d = true
      · simp only [get_cached_response, hm, if_pos hv]
        omega
      · simp only [get_cached_response, hm, if_neg hv]
        exact hdl _ _
    | none =>
      simp only [get_cached_response, hm]
      exact hdl _ _
  | put now q r ctx lang ok => rfl
  | cleanup now => simp [isGetOrPut] at hop
  | clear => simp [isGetOrPut] at hop

theorem runOps_stats_sum {α : Type} (ops : List (CacheOp α)) :
    ∀ c : SmartCache α, (∀ op ∈ ops, isGetOrPut op = true) →
      (runOps c ops).cache_stats.hits + (runOps c ops).cache_stats.misses
        = c.cache_stats.hits + c.cache_stats.misses + countGets ops := by
  induction ops with
  | nil =>
    intro c _
    simp [runOps, countGets]
  | cons op ops ih =>
    intro c hops
    have h1 := applyOp_stats_sum c op (hops op (List.mem_cons_self _ _))
    have h2 := ih (applyOp c op)
      (fun o ho => hops o (List.mem_cons_of_mem _ ho))
    show (runOps (applyOp c op) ops).cache_stats.hits
        + (runOps (applyOp c op) ops).cache_stats.misses = _
    rw [h2, h1]
    cases op <;> simp [countGets, List.countP_cons] <;> omega

theorem roundHalfEven_sub_le (x : ℚ) :
    |(roundHalfEven x : ℚ) - x| ≤ 1 / 2 := by
  have h1 : (Int.floor x : ℚ) ≤ x := Int.floor_le x
  have h2 : x < Int.floor x + 1 := Int.lt_floor_add_one x
  unfold roundHalfEven
  by_cases ha : x - Int.floor x < 1 / 2
  · rw [if_pos ha, abs_le]
    constructor
    · linarith
    · linarith
  · rw [if_neg ha]
    by_cases hb : 1 / 2 < x - Int.floor x
    · rw [if_pos hb, abs_le]
      push_cast
      constructor
      · linarith
      · linarith
    · rw [if_neg hb]
      by_cases hc : Even (Int.floor x)
      · rw [if_pos hc, abs_le]
        constructor
        · linarith
        · linarith
      · rw [if_neg hc, abs_le]
        push_cast
        constructor
        · linarith
        · linarith

theorem round2_sub_le (x : ℚ) : |round2 x - x| ≤ 1 / 200 := by
  have h := roundHalfEven_sub_le (x * 100)
  unfold round2
  rw [show (roundHalfEven (x * 100) : ℚ) / 100 - x

      = ((roundHalfEven (x * 100) : ℚ) - x * 100) / 100 from by ring]
  rw [abs_div, show |(100 : ℚ)| = 100 from by norm_num]
  linarith

/-- The four-operation trace of the C5 counterexample: a miss on the
empty cache, a put, a memory hit, and a second miss after expiry — one
hit, two misses. -/
def c5ops : List (CacheOp String) :=
  [.get 0 "q" "" "en", .put 0 "q" "v" "" "en" true, .get 1 "q" "" "en",
   .get 50 "q" "" "en"]

/-- C5, counterexample: after one hit and two misses the source reports
`round(100/3, 2) = 33.33` (line 170), which is not the exact
`hits/(hits+misses)*100 = 100/3` the claim states, so the reported hit
rate does not equal the exact formula. -/
theorem c5_counterexample :
    (runOps (smartCacheInit String 24) c5ops).cache_stats = ⟨1, 2, 1, 0⟩
    ∧ (get_cache_stats
        (runOps (smartCacheInit String 24) c5ops)).hit_rate_percent
      = 3333 / 100
    ∧ ((3333 : ℚ) / 100 ≠ (1 : ℚ) / ((1 : ℚ) + 2) * 100) := by
  have hstats : (runOps (smartCacheInit String 24) c5ops).cache_stats
      = ⟨1, 2, 1, 0⟩ := by decide
  refine ⟨hstats, ?_, by norm_num⟩
  have hform : (get_cache_stats
      (runOps (smartCacheInit String 24) c5ops)).hit_rate_percent
      = round2 (if (1 : ℕ) + 2 > 0 then
          ((1 : ℕ) : ℚ) / (((1 : ℕ) + 2 : ℕ) : ℚ) * 100 else 0) := by
    show round2 (if (runOps (smartCacheInit String 24)
          c5ops).cache_stats.hits
        + (runOps (smartCacheInit String 24) c5ops).cache_stats.misses
          > 0 then
          ((runOps (smartCacheInit String 24) c5ops).cache_stats.hits : ℚ)
            / (((runOps (smartCacheInit String 24) c5ops).cache_stats.hits
                + (runOps (smartCacheInit String 24)
                    c5ops).cache_stats.misses : Nat) : ℚ) * 100
        else 0) = _
    rw [hstats]
  rw [hform, if_pos (by norm_num)]
  have harg : ((1 : ℕ) : ℚ) / (((1 : ℕ) + 2 : ℕ) : ℚ) * 100
      = (100 : ℚ) / 3 := by
    push_cast
    norm_num
  rw [harg]
  have hfl : Int.floor ((100 : ℚ) / 3 * 100) = 3333 := by
    rw [show (100 : ℚ) / 3 * 100 = 10000 / 3 from by ring, Int.floor_eq_iff]
    constructor
    · push_cast
      norm_num
    · push_cast
      norm_num
  unfold round2 roundHalfEven
  rw [hfl]
  rw [if_pos (by push_cast; norm_num)]
  push_cast
  norm_num

/-- C5, amended: starting from zeroed counters, after any sequence of
`get`/`put` operations the counters satisfy `hits + misses = number of
gets`; the reported hit rate is the two-decimal half-even rounding
(`round(·, 2)`) of `hits/(hits+misses)*100` when that total is positive
and of `0` otherwise — not the exact ratio itself, from which it may
differ by up to `1/200` (0.005). -/
theorem c5_hit_accounting {α : Type} (c0 : SmartCache α)
    (h0hits : c0.cache_stats.hits = 0) (h0misses : c0.cache_stats.misses = 0)
    (ops : List (CacheOp α)) (hops : ∀ op ∈ ops, isGetOrPut op = true) :
    (runOps c0 ops).cache_stats.hits + (runOps c0 ops).cache_stats.misses
        = countGets ops
    ∧ (get_cache_stats (runOps c0 ops)).hit_rate_percent
        = round2 (if (runOps c0 ops).cache_stats.hits
              + (runOps c0 ops).cache_stats.misses > 0 then
            ((runOps c0 ops).cache_stats.hits : ℚ)
              / (((runOps c0 ops).cache_stats.hits
                  + (runOps c0 ops).cache_stats.misses : Nat) : ℚ) * 100
          else 0)
    ∧ |(get_cache_stats (runOps c0 ops)).hit_rate_percent
        - (if (runOps c0 ops).cache_stats.hits
              + (runOps c0 ops).cache_stats.misses > 0 then
            ((runOps c0 ops).cache_stats.hits : ℚ)
              / (((runOps c0 ops).cache_stats.hits
                  + (runOps c0 ops).cache_stats.misses : Nat) : ℚ) * 100
          else 0)| ≤ 1 / 200 := by
  refine ⟨?_, rfl, ?_⟩
  · rw [runOps_stats_sum ops c0 hops, h0hits, h0misses]
    omega
  · show |round2 (if (runOps c0 ops).cache_stats.hits
          + (runOps c0 ops).cache_stats.misses > 0 then
        ((runOps c0 ops).cache_stats.hits : ℚ)
          / (((runOps c0 ops).cache_stats.hits
              + (runOps c0 ops).cache_stats.misses : Nat) : ℚ) * 100
      else 0)
      - (if (runOps c0 ops).cache_stats.hits
            + (runOps c0 ops).cache_stats.misses > 0 then
          ((runOps c0 ops).cache_stats.hits : ℚ)
            / (((runOps c0 ops).cache_stats.hits
                + (runOps c0 ops).cache_stats.misses : Nat) : ℚ) * 100
        else 0)| ≤ 1 / 200
    exact round2_sub_le _

/-- C5, witness: one `put` and two `get`s (a memory hit at instant 1 and
a post-expiry miss at instant 50), so `hits + misses = 2 = countGets`,
and the reported rate is the rounded ratio within `1/200` of it. -/
theorem c5_witness :
    (smartCacheInit String 24).cache_stats.hits = 0
    ∧ (smartCacheInit String 24).cache_stats.misses = 0
    ∧ (∀ op ∈ ([.put 0 "q" "v" "" "en" true, .get 1 "q" "" "en",
                 .get 50 "q" "" "en"] : List (CacheOp String)),
        isGetOrPut op = true)
    ∧ ((runOps (smartCacheInit String 24)
          [.put 0 "q" "v" "" "en" true, .get 1 "q" "" "en",
           .get 50 "q" "" "en"]).cache_stats.hits
        + (runOps (smartCacheInit String 24)
          [.put 0 "q" "v" "" "en" true, .get 1 "q" "" "en",
           .get 50 "q" "" "en"]).cache_stats.misses
        = countGets ([.put 0 "q" "v" "" "en" true, .get 1 "q" "" "en",
                      .get 50 "q" "" "en"] : List (CacheOp String))
       ∧ (get_cache_stats (runOps (smartCacheInit String 24)
          [.put 0 "q" "v" "" "en" true, .get 1 "q" "" "en",
           .get 50 "q" "" "en"])).hit_rate_percent
          = round2 (if (runOps (smartCacheInit String 24)
          [.put 0 "q" "v" "" "en" true, .get 1 "q" "" "en",
           .get 50 "q" "" "en"]).cache_stats.hits
                + (runOps (smartCacheInit String 24)
          [.put 0 "q" "v" "" "en" true, .get 1 "q" "" "en",
           .get 50 "q" "" "en"]).cache_stats.misses > 0 then
              ((runOps (smartCacheInit String 24)
          [.put 0 "q" "v" "" "en" true, .get 1 "q" "" "en",
           .get 50 "q" "" "en"]).cache_stats.hits : ℚ)
                / (((runOps (smartCacheInit String 24)
          [.put 0 "q" "v" "" "en" true, .get 1 "q" "" "en",
           .get 50 "q" "" "en"]).cache_stats.hits
                    + (runOps (smartCacheInit String 24)
          [.put 0 "q" "v" "" "en" true, .get 1 "q" "" "en",
           .get 50 "q" "" "en"]).cache_stats.misses : Nat) : ℚ) * 100
            else 0)
       ∧ |(get_cache_stats (runOps (smartCacheInit String 24)
          [.put 0 "q" "v" "" "en" true, .get 1 "q" "" "en",
           .get 50 "q" "" "en"])).hit_rate_percent
          - (if (runOps (smartCacheInit String 24)
          [.put 0 "q" "v" "" "en" true, .get 1 "q" "" "en",
           .get 50 "q" "" "en"]).cache_stats.hits
                + (runOps (smartCacheInit String 24)
          [.put 0 "q" "v" "" "en" true, .get 1 "q" "" "en",
           .get 50 "q" "" "en"]).cache_stats.misses > 0 then
              ((runOps (smartCacheInit String 24)
          [.put 0 "q" "v" "" "en" true, .get 1 "q" "" "en",
           .get 50 "q" "" "en"]).cache_stats.hits : ℚ)
                / (((runOps (smartCacheInit String 24)
          [.put 0 "q" "v" "" "en" true, .get 1 "q" "" "en",
           .get 50 "q" "" "en"]).cache_stats.hits
                    + (runOps (smartCacheInit String 24)
          [.put 0 "q" "v" "" "en" true, .get 1 "q" "" "en",
           .get 50 "q" "" "en"]).cache_stats.misses : Nat) : ℚ) * 100
            else 0)| ≤ 1 / 200) :=
  ⟨rfl, rfl, by decide,
   c5_hit_accounting (smartCacheInit String 24) rfl rfl
     [.put 0 "q" "v" "" "en" true, .get 1 "q" "" "en", .get 50 "q" "" "en"]
     (by decide)⟩

/-! ## C3 — memory/disk tier agreement -/

/-- A key-independent filter keeps only values satisfying `f`; a surviving
value of a surviving binding satisfies `f`. -/
theorem alookup_filter_snd {β : Type} (f : β → Bool) {k : String} {d : β} :
    ∀ {l : List (String × β)},
      alookup k (l.filter (fun p => f p.2)) = some d → f d = true := by
  intro l
  induction l with
  | nil =>
    intro h
    simp [alookup] at h
  | cons q rest ih =>
    intro h
    simp only [List.filter_cons] at h
    by_cases hf : f q.2 = true
    · rw [if_pos hf] at h
      by_cases hq : q.1 == k
      · have : q.2 = d := by simpa [alookup, hq] using h
        exact this ▸ hf
      · exact ih (by simpa [alookup, hq] using h)
    · rw [if_neg hf] at h
      exact ih h

/-- Filtering by a key-independent predicate preserves a binding whose
value satisfies it (given unique keys). -/
theorem alookup_filter_snd_of_nodup {β : Type} (f : β → Bool) {k : String}
    {d : β} :
    ∀ {l : List (String × β)}, (akeys l).Nodup → alookup k l = some d →
      f d = true → alookup k (l.filter (fun p => f p.2)) = some d := by
  intro l
  induction l with
  | nil =>
    intro _ h _
    simp [alookup] at h
  | cons q rest ih =>
    intro hnd h hf
    rcases List.nodup_cons.mp (show (q.1 :: akeys rest).Nodup from hnd)
      with ⟨hnmem, hrest⟩
    simp only [List.filter_cons]
    by_cases hq : q.1 == k
    · have hqd : q.2 = d := by simpa [alookup, hq] using h
      rw [if_pos (show f q.2 = true from by rw [hqd]; exact hf)]
      simp [alookup, hq, hqd]
    · have hr : alookup k rest = some d := by simpa [alookup, hq] using h
      by_cases hfq : f q.2 = true
      · rw [if_pos hfq]
        rw [show alookup k (q :: rest.filter (fun p => f p.2))
            = alookup k (rest.filter (fun p => f p.2)) from by
          simp [alookup, hq]]
        exact ih hrest hr hf
      · rw [if_neg hfq]
        exact ih hrest hr hf

/-- The inductive invariant behind the C3 claim: both tiers have unique
keys, and every memory binding also sits — with the identical full entry —
in the disk tier. -/
def tierInvariant {α : Type} (c : SmartCache α) : Prop :=
  (akeys c.memory_cache).Nodup
  ∧ (akeys c.disk_cache).Nodup
  ∧ ∀ (k : String) (d : CacheData α),
      alookup k c.memory_cache = some d → alookup k c.disk_cache = some d

theorem tierInvariant_put {α : Type} {c : SmartCache α} (h : tierInvariant c)
    (now : Nat) (q : String) (r : α) (ctx lang : String) :
    tierInvariant (cache_response c now q r ctx lang true) := by
  obtain ⟨hm, hd, hagree⟩ := h
  refine ⟨nodup_akeys_aset _ hm, nodup_akeys_aset _ hd, ?_⟩
  intro k d hk
  by_cases hkey : k = _generate_cache_key q ctx lang
  · subst hkey
    rw [show (cache_response c now q r ctx lang true).memory_cache
        = aset (_generate_cache_key q ctx lang)
            ⟨q, r, ctx, lang, some now, 1⟩ c.memory_cache from rfl,
      alookup_aset_self] at hk
    rw [show (cache_response c now q r ctx lang true).disk_cache
        = aset (_generate_cache_key q ctx lang)
            ⟨q, r, ctx, lang, some now, 1⟩ c.disk_cache from rfl,
      alookup_aset_self]
    exact hk
  · rw [show (cache_response c now q r ctx lang true).memory_cache
        = aset (_generate_cache_key q ctx lang)
            ⟨q, r, ctx, lang, some now, 1⟩ c.memory_cache from rfl,
      alookup_aset_ne _ _ hkey] at hk
    rw [show (cache_response c now q r ctx lang true).disk_cache
        = aset (_generate_cache_key q ctx lang)
            ⟨q, r, ctx, lang, some now, 1⟩ c.disk_cache from rfl,
      alookup_aset_ne _ _ hkey]
    exact hagree k d hk

theorem tierInvariant_diskLookup {α : Type} (c' : SmartCache α) (now : Nat)
    (key : String) (hm : (akeys c'.memory_cache).Nodup)
    (hd : (akeys c'.disk_cache).Nodup)
    (hagree : ∀ (k : String) (d : CacheData α),
      alookup k c'.memory_cache = some d → alookup k c'.disk_cache = some d)
    (hnone : alookup key c'.memory_cache = none) :
    tierInvariant (diskLookup c' now key).2 := by
  cases hdk : alookup key c'.disk_cache with
  | some d =>
    by_cases hv : _is_cache_valid c' now d = true
    · simp only [diskLookup, hdk, if_pos hv]
      refine ⟨nodup_akeys_aset _ hm, hd, ?_⟩
      intro k' d' hk'
      by_cases hkey : k' = key
      · subst hkey
        rw [alookup_aset_self] at hk'
        rw [← Option.some.inj hk']
        exact hdk
      · rw [alookup_aset_ne _ _ hkey] at hk'
        exact hagree k' d' hk'
    · simp only [diskLookup, hdk, if_neg hv]
      refine ⟨hm, by unfold aerase; exact nodup_akeys_filter _ hd, ?_⟩
      intro k' d' hk'
      by_cases hkey : k' = key
      · subst hkey
        rw [hnone] at hk'
        exact Option.noConfusion hk'
      · rw [alookup_aerase_ne _ hkey]
        exact hagree k' d' hk'
  | none =>
    simp only [diskLookup, hdk]
    exact ⟨hm, hd, hagree⟩

theorem tierInvariant_get {α : Type} {c : SmartCache α} (h : tierInvariant c)
    (now : Nat) (q ctx lang : String) :
    tierInvariant (get_cached_response c now q ctx lang).2 := by
  obtain ⟨hm, hd, hagree⟩ := h
  cases hmk : alookup (_generate_cache_key q ctx lang) c.memory_cache with
  | some d =>
    by_cases hv : _is_cache_valid c now d = true
    · simp only [get_cached_response, hmk, if_pos hv]
      exact ⟨hm, hd, hagree⟩
    · simp only [get_cached_response, hmk, if_neg hv]
      refine tierInvariant_diskLookup _ now _ ?_ hd ?_ ?_
      · show (akeys (aerase (_generate_cache_key q ctx lang)
            c.memory_cache)).Nodup
        unfold aerase
        exact nodup_akeys_filter _ hm
      · intro k d' hk
        refine hagree k d' ?_
        unfold aerase at hk
        exact alookup_filter_some _ hm hk
      · exact alookup_aerase_self _ _
  | none =>
    simp only [get_cached_response, hmk]
    exact tierInvariant_diskLookup c now _ hm hd hagree hmk

theorem tierInvariant_cleanup {α : Type} {c : SmartCache α}
    (h : tierInvariant c) (now : Nat) :
    tierInvariant (cleanup_expired_cache c now) := by
  obtain ⟨hm, hd, hagree⟩ := h
  refine ⟨nodup_akeys_filter _ hm, nodup_akeys_filter _ hd, ?_⟩
  intro k d hk
  have hmem : alookup k c.memory_cache = some d := alookup_filter_some _ hm hk
  have hvalid : _is_cache_valid c now d = true :=
    alookup_filter_snd (fun x => _is_cache_valid c now x) hk
  exact alookup_filter_snd_of_nodup (fun x => _is_cache_valid c now x) hd
    (hagree k d hmem) hvalid

theorem tierInvariant_runOps {α : Type} (ops : List (CacheOp α)) :
    ∀ c : SmartCache α, tierInvariant c →
      (∀ op ∈ ops, diskWriteOk op = true) → tierInvariant (runOps c ops) := by
  induction ops with
  | nil =>
    intro c h _
    exact h
  | cons op ops ih =>
    intro c h hops
    have hop := hops op (List.mem_cons_self _ _)
    have hrest := fun o ho => hops o (List.mem_cons_of_mem _ ho)
    show tierInvariant (runOps (applyOp c op) ops)
    refine ih (applyOp c op) ?_ hrest
    cases op with
    | get now q ctx lang => exact tierInvariant_get h now q ctx lang
    | put now q r ctx lang ok =>
      have : ok = true := hop
      subst this
      exact tierInvariant_put h now q r ctx lang
    | cleanup now => exact tierInvariant_cleanup h now
    | clear => exact ⟨List.nodup_nil, List.nodup_nil, by intro k d hk; simp [clear_cache, alookup] at hk⟩

/-- The two-`put` trace behind the C3 counterexample: a successful write
of `"v1"` followed by an overwrite of `"v2"` whose disk write fails. -/
def c3ops : List (CacheOp String) :=
  [.put 0 "q" "v1" "" "en" true, .put 0 "q" "v2" "" "en" false]

/-- The cache state reached by `c3ops` from a fresh 24-hour cache. -/
def c3state : SmartCache String := runOps (smartCacheInit String 24) c3ops

/-- The cache key the C3 trace writes. -/
def c3key : String := _generate_cache_key "q" "" "en"

/-- C3, counterexample: after a successful `put` of `"v1"` and an
overwriting `put` of `"v2"` whose disk write fails, the memory tier holds
`"v2"` and the disk tier still holds `"v1"`; both entries are valid at
instant 0, yet their payloads differ — refuting the invariant for states
reached through a disk-write failure. -/
theorem c3_counterexample :
    alookup c3key c3state.memory_cache = some ⟨"q", "v2", "", "en", some 0, 1⟩
    ∧ alookup c3key c3state.disk_cache = some ⟨"q", "v1", "", "en", some 0, 1⟩
    ∧ _is_cache_valid c3state 0
        (⟨"q", "v2", "", "en", some 0, 1⟩ : CacheData String) = true
    ∧ _is_cache_valid c3state 0
        (⟨"q", "v1", "", "en", some 0, 1⟩ : CacheData String) = true
    ∧ ("v2" : String) ≠ "v1" := by
  refine ⟨?_, ?_, ?_, ?_, ?_⟩
  · decide
  · decide
  · decide
  · decide
  · decide

/-- C3, amended: restricted to traces in which the disk write of every
`put` succeeds, the invariant holds from a fresh cache: whenever both tiers hold
an entry for the same key (in particular both valid at a common instant),
the two entries are identical — same payload, same timestamp. -/
theorem c3_amended_tier_agreement {α : Type} (ops : List (CacheOp α))
    (hops : ∀ op ∈ ops, diskWriteOk op = true) (maxAge : Nat)
    (k : String) (d1 d2 : CacheData α) (now : Nat)
    (h1 : alookup k (runOps (smartCacheInit α maxAge) ops).memory_cache
        = some d1)
    (h2 : alookup k (runOps (smartCacheInit α maxAge) ops).disk_cache
        = some d2)
    (hv1 : _is_cache_valid (runOps (smartCacheInit α maxAge) ops) now d1
        = true)
    (hv2 : _is_cache_valid (runOps (smartCacheInit α maxAge) ops) now d2
        = true) :
    d1.response = d2.response ∧ d1 = d2 := by
  have hinv : tierInvariant (runOps (smartCacheInit α maxAge) ops) := by
    refine tierInvariant_runOps ops (smartCacheInit α maxAge)
      ⟨?_, ?_, ?_⟩ hops
    · simp [smartCacheInit, akeys]
    · simp [smartCacheInit, akeys]
    · intro k' d' hk'
      simp [smartCacheInit, alookup] at hk'
  have hdd := hinv.2.2 k d1 h1
  rw [h2] at hdd
  have hd := Option.some.inj hdd
  subst hd
  exact ⟨rfl, rfl⟩

/-- C3, witness for the amended theorem: a single successful `put` makes
both tiers hold the identical entry, valid shortly afterwards. -/
theorem c3_witness :
    (∀ op ∈ ([.put 0 "q" "v1" "" "en" true] : List (CacheOp String)),
      diskWriteOk op = true)
    ∧ alookup c3key
        (runOps (smartCacheInit String 24)
          [.put 0 "q" "v1" "" "en" true]).memory_cache
        = some ⟨"q", "v1", "", "en", some 0, 1⟩
    ∧ alookup c3key
        (runOps (smartCacheInit String 24)
          [.put 0 "q" "v1" "" "en" true]).disk_cache
        = some ⟨"q", "v1", "", "en", some 0, 1⟩
    ∧ _is_cache_valid
        (runOps (smartCacheInit String 24) [.put 0 "q" "v1" "" "en" true]) 5
        (⟨"q", "v1", "", "en", some 0, 1⟩ : CacheData String) = true
    ∧ ((⟨"q", "v1", "", "en", some 0, 1⟩ : CacheData String).response
          = (⟨"q", "v1", "", "en", some 0, 1⟩ : CacheData String).response
       ∧ (⟨"q", "v1", "", "en", some 0, 1⟩ : CacheData String)
          = ⟨"q", "v1", "", "en", some 0, 1⟩) :=
  ⟨by decide, by decide, by decide, by decide,
   c3_amended_tier_agreement [.put 0 "q" "v1" "" "en" true] (by decide) 24
     c3key ⟨"q", "v1", "", "en", some 0, 1⟩ ⟨"q", "v1", "", "en", some 0, 1⟩
     5 (by decide) (by decide) (by decide) (by decide)⟩

/-! ## C1 — the text-query route does not use the response cache -/

theorem aset_isEmpty_false {β : Type} (k : String) (v : β)
    (l : List (String × β)) : (aset k v l).isEmpty = false := by
  cases l with
  | nil => rfl
  | cons p rest =>
    by_cases hp : p.1 == k
    · simp [aset, hp]
    · simp [aset, hp]

theorem dictGet_dictSet_self (d : PyDict) (k : String) (v : PyVal) :
    dictGet (dictSet d k v) k = some v :=
  alookup_aset_self k v d

theorem dictGet_dictSet_ne (d : PyDict) (k : String) (v : PyVal)
    {k' : String} (h : k' ≠ k) : dictGet (dictSet d k v) k' = dictGet d k' :=
  alookup_aset_ne v d h

/-- The concrete collaborator environment of the C1 counterexample: the
vector store is empty (keyword fallback), the Groq client is configured
and answers deterministically, translation is the identity, and TTS
returns a fixed path. -/
def c1env : TextQueryEnv :=
  { auto_translate_to_english := fun t _ => (t, "en"),
    detect_intent := fun _ => ⟨"general_query", 1⟩,
    extract_entities := fun _ => [],
    vstoreStats := some 0,
    vsearch := fun _ _ => none,
    groq := some (fun _ => "Use certified seed and transplant healthy seedlings."),
    translate := fun t _ _ => t,
    synthesize_tts := fun _ _ => "/audio/resp.wav" }

/-- The C1 counterexample request. -/
def c1payload : MobileQuery := ⟨"How to grow rice?", "en"⟩

/-- Fresh pipeline state: empty global cache, no composition calls yet. -/
def c1state0 : PipelineState := ⟨smartCacheInit PyDict 24, 0⟩

/-- C1, counterexample: two identical `text_query` calls (same text, same
language, within any TTL window) each invoke the composition collaborator
— the call count goes 0 → 1 → 2 — the two responses are byte-for-byte
identical (there is no cache-hit flag in the response at all), and the
process-wide cache is never touched.  This refutes both halves of the
claim: the first call cannot return `cacheHit = false` (no such field
exists) and the second call does invoke the composition collaborator
again. -/
theorem c1_counterexample :
    (text_query c1env c1payload c1state0 1).2.composeCalls = 1
    ∧ (text_query c1env c1payload
        ((text_query c1env c1payload c1state0 1).2) 1).2.composeCalls = 2
    ∧ (text_query c1env c1payload
        ((text_query c1env c1payload c1state0 1).2) 1).1
      = (text_query c1env c1payload c1state0 1).1
    ∧ (text_query c1env c1payload
        ((text_query c1env c1payload c1state0 1).2) 1).2.cache
      = c1state0.cache := by
  refine ⟨rfl, rfl, ?_, rfl⟩
  decide

/-- C1, amended: the `text_query` route never consults the response
cache (see `c1_counterexample`); the claimed behaviour instead holds of
the (unused by any route) `CachedResponseGenerator.get_or_generate_response`
layer over a fresh cache: with the same (query, context, language) and the
second call within the TTL window, the first call invokes the generator
exactly once and its response carries `from_cache = False`; the second
call invokes the generator no further time and returns the cached
response with `from_cache = True` and every other field — in particular
the answer text — identical. -/
theorem c1_amended_cached_generator (ttl t0 t1 : Nat)
    (q ctx lang genAt1 genAt2 : String) (pt1 pt2 : ℚ)
    (gen : String → String → String → PyDict) (hvalid : t1 < t0 + ttl) :
    ∀ (r1 : PyDict) (c1 : SmartCache PyDict) (n1 : Nat) (r2 : PyDict)
      (c2 : SmartCache PyDict) (n2 : Nat),
      (r1, c1, n1) = get_or_generate_response (smartCacheInit PyDict ttl) 0
        t0 q ctx lang gen pt1 genAt1 true →
      (r2, c2, n2) = get_or_generate_response c1 n1 t1 q ctx lang gen pt2
        genAt2 true →
      n1 = 1 ∧ n2 = 1
      ∧ dictGet r1 "from_cache" = some (.bool false)
      ∧ r2 = dictSet r1 "from_cache" (.bool true)
      ∧ (∀ k' : String, k' ≠ "from_cache" → dictGet r2 k' = dictGet r1 k') := by
  intro r1 c1 n1 r2 c2 n2 e1 e2
  have h1 : get_or_generate_response (smartCacheInit PyDict ttl) 0 t0 q ctx
      lang gen pt1 genAt1 true
      = (dictSet (dictSet (dictSet (gen q ctx lang) "from_cache"
            (.bool false)) "processing_time" (.num pt1)) "generated_at"
            (.str genAt1),
         cache_response ⟨ttl, [], [], ⟨0, 1, 0, 0⟩⟩ t0 q
           (dictSet (dictSet (dictSet (gen q ctx lang) "from_cache"
             (.bool false)) "processing_time" (.num pt1)) "generated_at"
             (.str genAt1)) ctx lang true,
         1) := rfl
  rw [h1] at e1
  have hr1 : r1 = dictSet (dictSet (dictSet (gen q ctx lang) "from_cache"
      (.bool false)) "processing_time" (.num pt1)) "generated_at"
      (.str genAt1) := congrArg (fun x => x.1) e1
  have hc1 : c1 = cache_response ⟨ttl, [], [], ⟨0, 1, 0, 0⟩⟩ t0 q
      (dictSet (dictSet (dictSet (gen q ctx lang) "from_cache"
        (.bool false)) "processing_time" (.num pt1)) "generated_at"
        (.str genAt1)) ctx lang true := congrArg (fun x => x.2.1) e1
  have hn1 : n1 = 1 := congrArg (fun x => x.2.2) e1
  subst hr1
  subst hc1
  subst hn1
  have hlook : alookup (_generate_cache_key q ctx lang)
      (cache_response ⟨ttl, [], [], ⟨0, 1, 0, 0⟩⟩ t0 q
        (dictSet (dictSet (dictSet (gen q ctx lang) "from_cache"
          (.bool false)) "processing_time" (.num pt1)) "generated_at"
          (.str genAt1)) ctx lang true).memory_cache
      = some ⟨q, dictSet (dictSet (dictSet (gen q ctx lang) "from_cache"
          (.bool false)) "processing_time" (.num pt1)) "generated_at"
          (.str genAt1), ctx, lang, some t0, 1⟩ :=
    alookup_aset_self _ _ _
  have hv1 : _is_cache_valid
      (cache_response ⟨ttl, [], [], ⟨0, 1, 0, 0⟩⟩ t0 q
        (dictSet (dictSet (dictSet (gen q ctx lang) "from_cache"
          (.bool false)) "processing_time" (.num pt1)) "generated_at"
          (.str genAt1)) ctx lang true) t1
      (⟨q, dictSet (dictSet (dictSet (gen q ctx lang) "from_cache"
          (.bool false)) "processing_time" (.num pt1)) "generated_at"
          (.str genAt1), ctx, lang, some t0, 1⟩ : CacheData PyDict)
      = true := by
    show decide (t1 < t0 + ttl) = true
    exact decide_eq_true hvalid
  have hget2 : get_cached_response
      (cache_response ⟨ttl, [], [], ⟨0, 1, 0, 0⟩⟩ t0 q
        (dictSet (dictSet (dictSet (gen q ctx lang) "from_cache"
          (.bool false)) "processing_time" (.num pt1)) "generated_at"
          (.str genAt1)) ctx lang true) t1 q ctx lang
      = (some (dictSet (dictSet (dictSet (gen q ctx lang) "from_cache"
            (.bool false)) "processing_time" (.num pt1)) "generated_at"
            (.str genAt1)),
         ⟨ttl,
          [(_generate_cache_key q ctx lang,
            ⟨q, dictSet (dictSet (dictSet (gen q ctx lang) "from_cache"
              (.bool false)) "processing_time" (.num pt1)) "generated_at"
              (.str genAt1), ctx, lang, some t0, 1⟩)],
          [(_generate_cache_key q ctx lang,
            ⟨q, dictSet (dictSet (dictSet (gen q ctx lang) "from_cache"
              (.bool false)) "processing_time" (.num pt1)) "generated_at"
              (.str genAt1), ctx, lang, some t0, 1⟩)],
          ⟨1, 1, 1, 0⟩⟩) := by
    simp only [get_cached_response, hlook, if_pos hv1]
    rfl
  have hne : ¬((dictSet (dictSet (dictSet (gen q ctx lang) "from_cache"
      (.bool false)) "processing_time" (.num pt1)) "generated_at"
      (.str genAt1)).isEmpty = true) := by
    rw [show (dictSet (dictSet (dictSet (gen q ctx lang) "from_cache"
      (.bool false)) "processing_time" (.num pt1)) "generated_at"
      (.str genAt1)).isEmpty = false from aset_isEmpty_false _ _ _]
    exact Bool.false_ne_true
  have h2 : get_or_generate_response
      (cache_response ⟨ttl, [], [], ⟨0, 1, 0, 0⟩⟩ t0 q
        (dictSet (dictSet (dictSet (gen q ctx lang) "from_cache"
          (.bool false)) "processing_time" (.num pt1)) "generated_at"
          (.str genAt1)) ctx lang true) 1 t1 q ctx lang gen pt2 genAt2 true
      = (dictSet (dictSet (dictSet (dictSet (gen q ctx lang) "from_cache"
            (.bool false)) "processing_time" (.num pt1)) "generated_at"
            (.str genAt1)) "from_cache" (.bool true),
         ⟨ttl,
          [(_generate_cache_key q ctx lang,
            ⟨q, dictSet (dictSet (dictSet (gen q ctx lang) "from_cache"
              (.bool false)) "processing_time" (.num pt1)) "generated_at"
              (.str genAt1), ctx, lang, some t0, 1⟩)],
          [(_generate_cache_key q ctx lang,
            ⟨q, dictSet (dictSet (dictSet (gen q ctx lang) "from_cache"
              (.bool false)) "processing_time" (.num pt1)) "generated_at"
              (.str genAt1), ctx, lang, some t0, 1⟩)],
          ⟨1, 1, 1, 0⟩⟩,
         1) := by
    simp only [get_or_generate_response, hget2]
    rw [if_neg hne]
  rw [h2] at e2
  have hr2 : r2 = dictSet (dictSet (dictSet (dictSet (gen q ctx lang)
      "from_cache" (.bool false)) "processing_time" (.num pt1))
      "generated_at" (.str genAt1)) "from_cache" (.bool true) :=
    congrArg (fun x => x.1) e2
  have hn2 : n2 = 1 := congrArg (fun x => x.2.2) e2
  subst hr2
  subst hn2
  refine ⟨rfl, rfl, ?_, rfl, ?_⟩
  · rw [dictGet_dictSet_ne _ _ _ (by decide),
      dictGet_dictSet_ne _ _ _ (by decide), dictGet_dictSet_self]
  · intro k' hk'
    exact dictGet_dictSet_ne _ _ _ hk'

/-- The generator used by the C1 witness. -/
def c1gen : String → String → String → PyDict :=
  fun _ _ _ => [("answer_text", PyVal.str "Flood the field before transplanting.")]

/-- First generator call of the C1 witness (fresh 24-hour cache, instant 0). -/
def c1first : PyDict × SmartCache PyDict × Nat :=
  get_or_generate_response (smartCacheInit PyDict 24) 0 0
    "how to grow rice?" "" "en" c1gen 1 "2024-01-01T00:00:00" true

/-- Second, identical call of the C1 witness at instant 1. -/
def c1second : PyDict × SmartCache PyDict × Nat :=
  get_or_generate_response c1first.2.1 c1first.2.2 1
    "how to grow rice?" "" "en" c1gen 2 "2024-01-01T00:00:01" true

/-- C1, witness for the amended theorem at a concrete repeated query. -/
theorem c1_amended_witness :
    (1 : Nat) < 0 + 24
    ∧ (c1first.2.2 = 1 ∧ c1second.2.2 = 1
       ∧ dictGet c1first.1 "from_cache" = some (.bool false)
       ∧ c1second.1 = dictSet c1first.1 "from_cache" (.bool true)
       ∧ (∀ k' : String, k' ≠ "from_cache" →
            dictGet c1second.1 k' = dictGet c1first.1 k')) :=
  ⟨by decide,
   c1_amended_cached_generator 24 0 1 "how to grow rice?" "" "en"
     "2024-01-01T00:00:00" "2024-01-01T00:00:01" 1 2 c1gen (by decide)
     c1first.1 c1first.2.1 c1first.2.2 c1second.1 c1second.2.1 c1second.2.2
     rfl rfl⟩

end FarmerCopilot
